import Mathlib

/-!
Civic issue reporter: issue store and HTTP handlers.

A shallow embedding of `server.js`: the `issues` table, the handlers of
`GET /api/issues`, `GET /api/issues/:id`, `POST /api/issues`,
`PUT /api/issues/:id/status` and `GET /api/stats`, and the upload middleware
in front of the create handler; of `CivicReporter.validateForm` in
`citizen.js`; and of `AdminDashboard.generateCSV` and
`AdminDashboard.renderPagination` in `admin.js`.

Modelling conventions.

* The database is a value of type `Store`: the rows of `issues` in rowid
  order (the order of a table scan) and the `sqlite_sequence` counter kept for
  the `AUTOINCREMENT` key. Handlers are functions from a store to a response
  (and a new store, for the two writing handlers). Storage failures other than
  the `NOT NULL` constraints are not modelled.
* `CURRENT_TIMESTAMP` is an input `now : Nat`, the clock reading in seconds.
  SQLite renders it as the text `YYYY-MM-DD HH:MM:SS`, whose text order is the
  order of the seconds it denotes.
* A request field is `Option String`: `none` is an absent (`undefined`) or
  `null` field, which the driver binds as `NULL`. The `TEXT` columns keep the
  text they are given. The `REAL` columns `latitude` and `longitude` turn
  numeric text into the number it denotes (`realAffinity`); the number is held
  as an exact decimal, and the rounding of a 64-bit float, which leaves a
  decimal of up to 15 significant digits as it is, is not modelled.
* `page` and `limit` are `Option Int`: absent, or the integer the query text
  denotes. The handler `getIssues` turns them into JavaScript numbers
  (`roundToDouble`) and answers 500 when the database refuses the `LIMIT` or
  `OFFSET` parameter; `list` is the body it answers with in exact arithmetic,
  which is what it computes on safe integers (`getIssues_safe`).
-/

namespace CivicIssues

/-! ## Data model -/

/-- A number as a `REAL` column gives it back: `mantissa * 10 ^ exponent`,
negated when `negative`. The mantissa of a number other than zero does not end
in the digit 0 and zero is `⟨false, 0, 0⟩`, so that equal numbers are equal
values. -/
structure Decimal where
  negative : Bool
  mantissa : Nat
  exponent : Int
deriving DecidableEq, Repr

/-- What a `REAL` column holds: `NULL`, a number, or a text that is not
numeric and was stored as it is. -/
inductive RealCell where
  | null
  | number (value : Decimal)
  | text (value : String)
deriving DecidableEq, Repr

/-- The white space the numeric reader of the database skips. -/
def isSqlSpace (c : Char) : Bool :=
  [0x20, 0x9, 0xA, 0xB, 0xC, 0xD].contains c.toNat

/-- The value of a decimal digit. -/
def digitValue (c : Char) : Option Nat :=
  if 48 ≤ c.toNat ∧ c.toNat ≤ 57 then some (c.toNat - 48) else none

/-- Reads a run of digits: the value read so far, the number of digits read
so far, and on return the characters left over. -/
def readDigits (value count : Nat) (z : List Char) : Nat × Nat × List Char :=
  match z with
  | [] => (value, count, [])
  | c :: rest =>
    match digitValue c with
    | some d => readDigits (value * 10 + d) (count + 1) rest
    | none => (value, count, c :: rest)

/-- Reads an optional sign; `true` for a minus sign. -/
def readSign (z : List Char) : Bool × List Char :=
  match z with
  | [] => (false, [])
  | c :: rest =>
    if c = '-' then (true, rest)
    else if c = '+' then (false, rest)
    else (false, c :: rest)

/-- Takes the factors of ten out of a mantissa. -/
def stripZeros (fuel mantissa : Nat) (exponent : Int) : Nat × Int :=
  match fuel with
  | 0 => (mantissa, exponent)
  | f + 1 =>
    if mantissa % 10 = 0 ∧ mantissa ≠ 0 then stripZeros f (mantissa / 10) (exponent + 1)
    else (mantissa, exponent)

/-- The number `mantissa * 10 ^ exponent` with its sign, as a `Decimal`. -/
def Decimal.normalize (negative : Bool) (mantissa : Nat) (exponent : Int) : Decimal :=
  if mantissa = 0 then ⟨false, 0, 0⟩
  else ⟨negative, (stripZeros mantissa mantissa exponent).1,
    (stripZeros mantissa mantissa exponent).2⟩

/-- The exponent part of a numeric text: nothing, or `e` or `E`, an optional
sign and at least one digit. Returns the exponent and the characters left
over, `none` for an `e` without digits. -/
def readExponent (z : List Char) : Option (Int × List Char) :=
  match z with
  | [] => some (0, [])
  | c :: rest =>
    if c = 'e' ∨ c = 'E' then
      let signed := readSign rest
      let digits := readDigits 0 0 signed.2
      if digits.2.1 = 0 then none
      else some (if signed.1 then - (digits.1 : Int) else (digits.1 : Int), digits.2.2)
    else some (0, c :: rest)

/-- The number a text denotes when the whole of it looks like a number to the
database: white space, an optional sign, digits with an optional decimal point
among them (at least one digit), an optional exponent, white space. -/
def parseNumeric (s : String) : Option Decimal :=
  let signed := readSign (s.toList.dropWhile isSqlSpace)
  let whole := readDigits 0 0 signed.2
  let fraction :=
    match whole.2.2 with
    | [] => (whole.1, 0, [])
    | c :: rest => if c = '.' then readDigits whole.1 0 rest else (whole.1, 0, c :: rest)
  match readExponent fraction.2.2 with
  | none => none
  | some (e, rest) =>
    if (rest.dropWhile isSqlSpace).isEmpty ∧ 0 < whole.2.1 + fraction.2.1 then
      some (Decimal.normalize signed.1 fraction.1 (e - (fraction.2.1 : Int)))
    else none

/-- What a `REAL` column makes of a bound parameter: `NULL` stays `NULL`,
numeric text becomes the number, any other text is stored as it is. -/
def realAffinity (v : Option String) : RealCell :=
  match v with
  | none => .null
  | some text =>
    match parseNumeric text with
    | some d => .number d
    | none => .text text

/-- A bound parameter as a column would hold it if it stored the text as
given. -/
def asSubmitted (v : Option String) : RealCell :=
  match v with
  | none => .null
  | some text => .text text

/-- One row of the `issues` table (`initializeDatabase`). `title`,
`description` and `category` are `NOT NULL`; every other text column may hold
`NULL`; `latitude` and `longitude` are `REAL` columns. -/
structure Issue where
  id : Nat
  title : String
  description : String
  category : String
  status : Option String
  priority : Option String
  latitude : RealCell
  longitude : RealCell
  address : Option String
  image_path : Option String
  reporter_name : Option String
  reporter_email : Option String
  reporter_phone : Option String
  created_at : Nat
  updated_at : Nat
  admin_notes : Option String
deriving DecidableEq, Repr

/-- The database: the rows of `issues` in table order and the largest rowid
ever handed out, as `sqlite_sequence` records it for an `AUTOINCREMENT`
column. -/
structure Store where
  rows : List Issue
  seq : Nat
deriving DecidableEq, Repr

/-- The database right after `initializeDatabase` on a fresh file. -/
def Store.empty : Store := ⟨[], 0⟩

/-- An HTTP response: a JSON body, or an error status with its message. -/
inductive Response (α : Type) where
  | ok (body : α)
  | error (code : Nat) (message : String)
deriving DecidableEq, Repr

/-! ## Upload middleware -/

/-- The file part of a multipart create request, as the upload middleware sees
it; `filename` is the name the disk storage generated for it. -/
structure UploadedFile where
  filename : String
  mimetype : String
  size : Nat
deriving DecidableEq, Repr

/-- The `fileFilter` of `upload`: `file.mimetype.startsWith('image/')`. -/
def fileFilter (f : UploadedFile) : Bool :=
  "image/".toList.isPrefixOf f.mimetype.toList

/-- The `limits.fileSize` of `upload`. -/
def fileSizeLimit : Nat := 5 * 1024 * 1024

/-- The middleware `upload.single('image')`: the filter runs on the file
header, the size limit while the body streams in. `none` lets the request
through to the handler. -/
def uploadSingle (file : Option UploadedFile) : Option String :=
  match file with
  | none => none
  | some f =>
    if fileFilter f then
      if f.size > fileSizeLimit then some "File too large" else none
    else some "Only images are allowed!"

/-! ## Create -/

/-- The body and file of `POST /api/issues`. `status` and `priority` are fields
a client may put in the body; the handler does not read them. -/
structure CreateRequest where
  title : Option String
  description : Option String
  category : Option String
  latitude : Option String
  longitude : Option String
  address : Option String
  reporter_name : Option String
  reporter_email : Option String
  reporter_phone : Option String
  status : Option String
  priority : Option String
  file : Option UploadedFile
deriving DecidableEq, Repr

/-- The JSON body of a successful create. -/
structure CreateOk where
  id : Nat
  message : String
  status : String
deriving DecidableEq, Repr

/-- Largest rowid present in the table, `0` for an empty table. -/
def maxRowid (rows : List Issue) : Nat :=
  rows.foldr (fun r m => max r.id m) 0

/-- The key an `AUTOINCREMENT` column gives the next row: one more than the
largest rowid that is or ever was in the table. -/
def nextRowid (s : Store) : Nat :=
  max s.seq (maxRowid s.rows) + 1

/-- The row an `INSERT` of the create handler writes under key `id`. The ten
listed columns take the bound parameters, the two `REAL` columns under their
affinity, `status`, `priority`, `created_at` and `updated_at` take their
column defaults, `admin_notes` stays `NULL`. -/
def insertedRow (id now : Nat) (title description category : String) (req : CreateRequest)
    (image_path : Option String) : Issue :=
  { id := id
    title := title
    description := description
    category := category
    status := some "reported"
    priority := some "medium"
    latitude := realAffinity req.latitude
    longitude := realAffinity req.longitude
    address := req.address
    image_path := image_path
    reporter_name := req.reporter_name
    reporter_email := req.reporter_email
    reporter_phone := req.reporter_phone
    created_at := now
    updated_at := now
    admin_notes := none }

/-- The `INSERT` of the create handler. The `NOT NULL` constraints are checked
in column order; on success the row goes to the end of the table under a fresh
key. Returns the new store and `lastID`. -/
def insertIssue (s : Store) (now : Nat) (req : CreateRequest) (image_path : Option String) :
    Except String (Store × Nat) :=
  match req.title, req.description, req.category with
  | none, _, _ => .error "SQLITE_CONSTRAINT: NOT NULL constraint failed: issues.title"
  | some _, none, _ => .error "SQLITE_CONSTRAINT: NOT NULL constraint failed: issues.description"
  | some _, some _, none => .error "SQLITE_CONSTRAINT: NOT NULL constraint failed: issues.category"
  | some title, some description, some category =>
    let id := nextRowid s
    .ok (⟨s.rows ++ [insertedRow id now title description category req image_path], id⟩, id)

/-- The handler `app.post('/api/issues', upload.single('image'), ...)`. -/
def create (s : Store) (now : Nat) (req : CreateRequest) : Store × Response CreateOk :=
  match uploadSingle req.file with
  | some msg => (s, .error 500 msg)
  | none =>
    let image_path := req.file.map (fun f => f.filename)
    match insertIssue s now req image_path with
    | .error msg => (s, .error 500 msg)
    | .ok (s', lastID) => (s', .ok ⟨lastID, "Issue reported successfully", "reported"⟩)

/-! ## Get by id -/

/-- The handler `app.get('/api/issues/:id')`. -/
def getById (s : Store) (id : Nat) : Response Issue :=
  match s.rows.find? (fun r => r.id == id) with
  | none => .error 404 "Issue not found"
  | some row => .ok row

/-! ## List -/

/-- The query string of `GET /api/issues`. `priority` and `search` are what
`AdminDashboard.applyFilters` adds to it; the handler destructures only the
first four. -/
structure ListQuery where
  status : Option String
  category : Option String
  page : Option Int
  limit : Option Int
  priority : Option String
  search : Option String
deriving DecidableEq, Repr

/-- The JSON body of the list response. -/
structure ListOk where
  issues : List Issue
  total : Nat
  page : Int
  limit : Int
deriving DecidableEq, Repr

/-- JavaScript truthiness of a query parameter: present and not the empty
string. -/
def truthy (p : Option String) : Bool :=
  match p with
  | none => false
  | some v => v != ""

/-- The `WHERE 1=1 [AND status = ?] [AND category = ?]` built by the list
handler. A `NULL` status equals nothing. -/
def whereClause (status category : Option String) (r : Issue) : Bool :=
  (if truthy status then r.status == status else true) &&
  (if truthy category then some r.category == category else true)

/-- The sort key relation of `ORDER BY created_at DESC`. -/
def newerFirst (a b : Issue) : Prop := b.created_at ≤ a.created_at

instance : DecidableRel newerFirst := fun a b => Nat.decLe b.created_at a.created_at

/-- The clause `ORDER BY created_at DESC` over scanned rows: the sorter keeps rows
with equal keys in the order the scan produced them. -/
def orderBy (rows : List Issue) : List Issue :=
  rows.insertionSort newerFirst

/-- The clause `LIMIT ? OFFSET ?`: a negative offset counts as zero, a negative
limit as no limit. -/
def limitOffset (limit offset : Int) (rows : List Issue) : List Issue :=
  let rest := rows.drop offset.toNat
  if limit < 0 then rest else rest.take limit.toNat

/-- The body `GET /api/issues` answers with when `page`, `limit` and the offset
`(page - 1) * limit` are taken as the integers they denote: the page of the
ordered matching rows and the count of all matching rows. The handler
`getIssues` computes with JavaScript numbers and answers exactly this whenever
the three are safe integers (`getIssues_safe`). -/
def list (s : Store) (q : ListQuery) : ListOk :=
  let page := q.page.getD 1
  let limit := q.limit.getD 10
  let matching := s.rows.filter (whereClause q.status q.category)
  let offset := (page - 1) * limit
  { issues := limitOffset limit offset (orderBy matching)
    total := matching.length
    page := page
    limit := limit }

/-- The largest integer up to which every integer is a JavaScript number:
`Number.MAX_SAFE_INTEGER`. -/
def maxSafeInteger : Nat := 2 ^ 53 - 1

/-- The number of binary digits of `n`, counted by halving at most `fuel`
times. -/
def bitLengthAux (fuel n : Nat) : Nat :=
  match fuel with
  | 0 => 0
  | f + 1 => if n = 0 then 0 else bitLengthAux f (n / 2) + 1

/-- The number of binary digits of a natural number, `0` for `0`. -/
def bitLength (n : Nat) : Nat := bitLengthAux n n

/-- The JavaScript number nearest to an integer: the integer itself up to
`maxSafeInteger`, beyond it the nearest multiple of the power of two that
leaves 53 significant bits, a tie going to the even one. -/
def roundToDouble (n : Int) : Int :=
  if n.natAbs ≤ maxSafeInteger then n
  else
    let e := bitLength n.natAbs - 53
    let q := n.natAbs / 2 ^ e
    let r := n.natAbs % 2 ^ e
    let q' := if 2 ^ (e - 1) < r ∨ (r = 2 ^ (e - 1) ∧ q % 2 = 1) then q + 1 else q
    if n < 0 then - ((q' * 2 ^ e : Nat) : Int) else ((q' * 2 ^ e : Nat) : Int)

/-- A JavaScript number that is not `Infinity` or `-Infinity`: its magnitude
is below `2 ^ 1024`, that is, it has at most 1024 binary digits. -/
def finiteDouble (d : Int) : Prop := bitLength d.natAbs ≤ 1024

instance (d : Int) : Decidable (finiteDouble d) :=
  inferInstanceAs (Decidable (bitLength d.natAbs ≤ 1024))

/-- A number the database takes as a 64-bit integer for `LIMIT` and
`OFFSET`. -/
def inInt64 (d : Int) : Prop := -(2 ^ 63 : Int) ≤ d ∧ d < (2 ^ 63 : Int)

instance (d : Int) : Decidable (inInt64 d) :=
  inferInstanceAs (Decidable (-(2 ^ 63 : Int) ≤ d ∧ d < (2 ^ 63 : Int)))

/-- The handler `app.get('/api/issues')`. `page - 1`, its product with `limit`
and `parseInt(limit)` are JavaScript numbers; the database refuses a `LIMIT` or
`OFFSET` parameter that is not a 64-bit integer with `SQLITE_MISMATCH`, which
the handler answers as a 500. -/
def getIssues (s : Store) (q : ListQuery) : Response ListOk :=
  let page := roundToDouble (q.page.getD 1)
  let limit := roundToDouble (q.limit.getD 10)
  let offset := roundToDouble (roundToDouble (page - 1) * limit)
  if finiteDouble page ∧ finiteDouble limit ∧ inInt64 limit ∧ inInt64 offset then
    let matching := s.rows.filter (whereClause q.status q.category)
    .ok { issues := limitOffset limit offset (orderBy matching)
          total := matching.length
          page := page
          limit := limit }
  else .error 500 "SQLITE_MISMATCH: datatype mismatch"

/-! ## Update status -/

/-- The `SET` list of the update: status, admin notes and a fresh
`updated_at`. -/
def setStatus (now : Nat) (status admin_notes : Option String) (r : Issue) : Issue :=
  { r with status := status, admin_notes := admin_notes, updated_at := now }

/-- The handler `app.put('/api/issues/:id/status')`: the `UPDATE ... WHERE id = ?`
and the check of `this.changes`. -/
def updateStatus (s : Store) (now : Nat) (id : Nat) (status admin_notes : Option String) :
    Store × Response String :=
  let changes := (s.rows.filter (fun r => r.id == id)).length
  let s' : Store := ⟨s.rows.map (fun r => if r.id == id then setStatus now status admin_notes r else r), s.seq⟩
  if changes = 0 then (s', .error 404 "Issue not found")
  else (s', .ok "Issue status updated successfully")

/-! ## Sample data -/

/-- A create request with the three required fields and nothing else. -/
def sampleRequest (title : String) : CreateRequest :=
  { title := some title
    description := some "The streetlight has been out for two weeks."
    category := some "lighting"
    latitude := none
    longitude := none
    address := none
    reporter_name := none
    reporter_email := none
    reporter_phone := none
    status := none
    priority := none
    file := none }

/-- A create request that fills every field and asks for status `resolved`
and priority `high`. -/
def fullRequest : CreateRequest :=
  { title := some "Pothole"
    description := some "Deep pothole near the bus stop"
    category := some "roads"
    latitude := some "12.5"
    longitude := some "77.25"
    address := some "4 Main St"
    reporter_name := some "Asha"
    reporter_email := some "asha@example.org"
    reporter_phone := some "555-0100"
    status := some "resolved"
    priority := some "high"
    file := some ⟨"1700000000000-42.png", "image/png", 2048⟩ }

/-- A create request whose latitude and longitude are numeric texts that are
not the shortest way to write their numbers. -/
def decimalRequest : CreateRequest :=
  { title := some "Pothole"
    description := some "Deep pothole near the bus stop"
    category := some "roads"
    latitude := some "12.50"
    longitude := some "1e2"
    address := some "4 Main St"
    reporter_name := none
    reporter_email := none
    reporter_phone := none
    status := none
    priority := none
    file := none }

/-- Two issues created within the same second, then a third one a second
later. -/
def sampleStore : Store :=
  let s1 := (create Store.empty 100 (sampleRequest "first")).1
  let s2 := (create s1 100 (sampleRequest "second")).1
  (create s2 101 (sampleRequest "third")).1

/-- The row the first create of `sampleStore` wrote. -/
def firstIssue : Issue :=
  insertedRow 1 100 "first" "The streetlight has been out for two weeks." "lighting"
    (sampleRequest "first") none

/-! ## Notions used to state the list contract -/

/-- A list request without filters for page `page` with `limit` rows a page. -/
def noFilter (page limit : Int) : ListQuery :=
  ⟨none, none, some page, some limit, none, none⟩

/-- Number of pages a client walks through for `n` rows, `limit` a page:
`ceil (n / limit)`. -/
def pageCount (n limit : Nat) : Nat := (n + limit - 1) / limit

/-- The issues of a list response, none for an error. -/
def servedIssues (r : Response ListOk) : List Issue :=
  match r with
  | .ok body => body.issues
  | .error _ _ => []

/-- The answers to the requests for the pages `1, 2, ..., ceil (n / limit)` of
the unfiltered list, one request each against the same store, in page
order. -/
def allPagesServed (s : Store) (limit : Nat) : List (Response ListOk) :=
  (List.range (pageCount s.rows.length limit)).map
    (fun (k : Nat) => getIssues s (noFilter (k + 1) limit))

/-- The pages `1, 2, ..., ceil (n / limit)` of the unfiltered list in exact
arithmetic, concatenated in page order. -/
def allPages (s : Store) (limit : Nat) : List Issue :=
  (List.range (pageCount s.rows.length limit)).flatMap
    (fun k => (list s (noFilter (k + 1) limit)).issues)

/-- The filter contract in words: a status filter that is given and not empty
must equal the issue's status, a category filter that is given and not empty
must equal its category, and a filter that is absent or empty asks nothing. -/
def matchesFilter (status category : Option String) (r : Issue) : Prop :=
  (match status with
    | none => True
    | some v => v = "" ∨ r.status = some v) ∧
  (match category with
    | none => True
    | some v => v = "" ∨ r.category = v)

instance (status category : Option String) (r : Issue) :
    Decidable (matchesFilter status category r) := by
  unfold matchesFilter
  cases status <;> cases category <;> infer_instance

/-- Table invariant of a rowid table: a scan meets the rows in increasing
rowid order. -/
def Store.rowidOrdered (s : Store) : Prop :=
  s.rows.Pairwise (fun a b => a.id < b.id)

instance (s : Store) : Decidable s.rowidOrdered := by
  unfold Store.rowidOrdered
  infer_instance

/-! ## Statistics -/

/-- One row of the per-category query of the stats handler. -/
structure CategoryCount where
  category : String
  count : Nat
deriving DecidableEq, Repr

/-- The JSON body of `GET /api/stats`. -/
structure Stats where
  total : Nat
  reported : Nat
  inProgress : Nat
  resolved : Nat
  categories : List CategoryCount
deriving DecidableEq, Repr

/-- The query `SELECT COUNT(*) FROM issues WHERE status = "..."`; a `NULL`
status equals nothing. -/
def countStatus (rows : List Issue) (status : String) : Nat :=
  rows.countP (fun r => r.status == some status)

/-- The `BINARY` collation on text: code point by code point, a proper
beginning of a text before the text. -/
def binaryLe (a b : List Char) : Bool :=
  match a, b with
  | [], _ => true
  | _ :: _, [] => false
  | x :: xs, y :: ys =>
    if x.toNat < y.toNat then true
    else if y.toNat < x.toNat then false
    else binaryLe xs ys

/-- The groups of `GROUP BY category`: the distinct categories of the table, in
ascending key order. -/
def groupKeys (rows : List Issue) : List String :=
  ((rows.map (fun r => r.category)).dedup).insertionSort
    (fun a b => binaryLe a.toList b.toList = true)

/-- The query `SELECT category, COUNT(*) as count FROM issues GROUP BY category
ORDER BY count DESC`: the groups by descending count, groups with equal counts
in descending category order, as the sorter of the database leaves them. -/
def categoryCounts (rows : List Issue) : List CategoryCount :=
  (((groupKeys rows).map
    (fun c => (⟨c, rows.countP (fun r => r.category == c)⟩ : CategoryCount))).insertionSort
    (fun a b => a.count ≤ b.count)).reverse

/-- The handler `app.get('/api/stats')`: five queries against the same table. -/
def stats (s : Store) : Stats :=
  { total := s.rows.length
    reported := countStatus s.rows "reported"
    inProgress := countStatus s.rows "in_progress"
    resolved := countStatus s.rows "resolved"
    categories := categoryCounts s.rows }

/-! ## Sequences of requests -/

/-- One request to an exposed operation. The two writing requests carry the
clock reading at which they are served. -/
inductive Op where
  | create (now : Nat) (req : CreateRequest)
  | getById (id : Nat)
  | list (q : ListQuery)
  | updateStatus (now : Nat) (id : Nat) (status admin_notes : Option String)
  | stats
deriving DecidableEq, Repr

/-- The store after serving one request. The three reading handlers only run
`SELECT` statements. -/
def step (s : Store) (op : Op) : Store :=
  match op with
  | .create now req => (create s now req).1
  | .getById _ => s
  | .list _ => s
  | .updateStatus now id status admin_notes => (updateStatus s now id status admin_notes).1
  | .stats => s

/-- The store after serving a sequence of requests in order. -/
def run (s : Store) (ops : List Op) : Store :=
  ops.foldl step s

/-- What a request creates: the id the create response reports and the clock
reading of that create, nothing for a failed create or another request. -/
def created (s : Store) (op : Op) : Option (Nat × Nat) :=
  match op with
  | .create now req =>
    match (create s now req).2 with
    | .ok body => some (body.id, now)
    | .error _ _ => none
  | _ => none

/-- The creation log of a sequence of requests: id and creation time of every
successful create, in order. -/
def creationLog (s : Store) (ops : List Op) : List (Nat × Nat) :=
  match ops with
  | [] => []
  | op :: rest => (created s op).toList ++ creationLog (step s op) rest

/-- Every id a create of the sequence returned, in order. -/
def assignedIds (s : Store) (ops : List Op) : List Nat :=
  (creationLog s ops).map Prod.fst

/-- The ids stored in the table, in table order. -/
def storedIds (s : Store) : List Nat :=
  s.rows.map (fun r => r.id)

/-- The clock reading of a request, for the two requests that read the
clock. -/
def Op.time (op : Op) : Option Nat :=
  match op with
  | .create now _ => some now
  | .updateStatus now _ _ _ => some now
  | _ => none

/-- Clock readings that never decrease, starting from reading `t`. -/
def nonDecreasingFrom (t : Nat) (readings : List Nat) : Prop :=
  match readings with
  | [] => True
  | u :: rest => t ≤ u ∧ nonDecreasingFrom u rest

instance decNonDecreasingFrom : (t : Nat) → (readings : List Nat) →
    Decidable (nonDecreasingFrom t readings)
  | _, [] => isTrue trivial
  | t, u :: rest =>
    have := decNonDecreasingFrom u rest
    inferInstanceAs (Decidable (t ≤ u ∧ nonDecreasingFrom u rest))

/-- The clock never runs backwards: starting from reading `t`, each request
that reads the clock sees a value at least as large as the one before. -/
def clockOrdered (t : Nat) (ops : List Op) : Prop :=
  nonDecreasingFrom t (ops.filterMap Op.time)

instance (t : Nat) (ops : List Op) : Decidable (clockOrdered t ops) :=
  inferInstanceAs (Decidable (nonDecreasingFrom t (ops.filterMap Op.time)))

/-- The three values of the status enumeration. -/
def knownStatus (status : Option String) : Prop :=
  status = some "reported" ∨ status = some "in_progress" ∨ status = some "resolved"

instance (status : Option String) : Decidable (knownStatus status) := by
  unfold knownStatus
  infer_instance

/-- The status a request asks to store is one of the three values; a request
other than a status update stores none. -/
def Op.statusKnown (op : Op) : Prop :=
  match op with
  | .updateStatus _ _ status _ => knownStatus status
  | _ => True

instance (op : Op) : Decidable op.statusKnown := by
  unfold Op.statusKnown
  cases op <;> infer_instance

/-- Every status update of the sequence carries one of the three values. -/
def updatesKnown (ops : List Op) : Prop :=
  ∀ op ∈ ops, op.statusKnown

instance (ops : List Op) : Decidable (updatesKnown ops) := by
  unfold updatesKnown
  infer_instance

/-- Three reports, the first of them then taken in progress, with a list and a
stats request in between. -/
def sampleOps : List Op :=
  [ .create 100 (sampleRequest "first"),
    .create 100 (sampleRequest "second"),
    .list (noFilter 1 10),
    .create 101 (sampleRequest "third"),
    .stats,
    .create 102 fullRequest,
    .updateStatus 105 1 (some "in_progress") (some "crew sent"),
    .getById 1 ]

/-- A create request whose image is six megabytes large. -/
def sixMegabyteRequest : CreateRequest :=
  { fullRequest with file := some ⟨"1700000000000-7.png", "image/png", 6 * 1024 * 1024⟩ }

/-- A create request whose title and description are present but empty. -/
def emptyTitleRequest : CreateRequest :=
  { sampleRequest "" with description := some "" }

/-! ## Citizen form validation (`citizen.js`) -/

/-- The selected file of the image input: `imageFile.type` and
`imageFile.size`. -/
structure ImageFile where
  type : String
  size : Nat
deriving DecidableEq, Repr

/-- What `validateForm` reads from the page: the values of the title,
description and category inputs and the first selected image, if any. -/
structure FormState where
  title : String
  description : String
  category : String
  image : Option ImageFile
deriving DecidableEq, Repr

/-- The characters `String.prototype.trim` strips: white space and line
terminators. -/
def jsWhitespace (c : Char) : Bool :=
  [0x9, 0xA, 0xB, 0xC, 0xD, 0x20, 0xA0, 0x1680, 0x2000, 0x2001, 0x2002, 0x2003, 0x2004,
    0x2005, 0x2006, 0x2007, 0x2008, 0x2009, 0x200A, 0x2028, 0x2029, 0x202F, 0x205F, 0x3000,
    0xFEFF].contains c.toNat

/-- The function `String.prototype.trim`, on the characters of a text. -/
def jsTrim (s : List Char) : List Char :=
  ((s.dropWhile jsWhitespace).reverse.dropWhile jsWhitespace).reverse

/-- The `length` of a JavaScript string: its number of UTF-16 code units. -/
def jsLength (s : List Char) : Nat :=
  (s.map (fun c => if c.toNat < 0x10000 then 1 else 2)).sum

/-- The `maxSize` of `validateForm`. -/
def maxSize : Nat := 5 * 1024 * 1024

/-- The `allowedTypes` of `validateForm`. -/
def allowedTypes : List String :=
  ["image/jpeg", "image/png", "image/gif", "image/webp"]

/-- The message `validateForm` shows before it returns `false`; `none` when it
shows nothing and returns `true`. -/
def formError (f : FormState) : Option String :=
  let title := jsTrim f.title.toList
  let description := jsTrim f.description.toList
  if title.isEmpty then some "Please enter a title for the issue."
  else if description.isEmpty then some "Please provide a description of the issue."
  else if f.category.isEmpty then some "Please select a category for the issue."
  else if jsLength title < 10 then some "Issue title must be at least 10 characters long."
  else if jsLength description < 20 then
    some "Issue description must be at least 20 characters long."
  else
    match f.image with
    | none => none
    | some imageFile =>
      if imageFile.size > maxSize then some "Image file size must be less than 5MB."
      else if !allowedTypes.contains imageFile.type then
        some "Only JPEG, PNG, GIF, and WebP images are allowed."
      else none

/-- The method `CivicReporter.validateForm`. -/
def validateForm (f : FormState) : Bool :=
  (formError f).isNone

/-- A form that passes the text checks and carries a PNG image of `size`
bytes. -/
def formWithImage (size : Nat) : FormState :=
  { title := "Broken streetlight on Main St"
    description := "The streetlight has been out for two weeks."
    category := "lighting"
    image := some ⟨"image/png", size⟩ }

/-! ## CSV export (`admin.js`) -/

/-- The double quote character. -/
def dquote : Char := Char.ofNat 34

/-- The line feed character. -/
def lf : Char := Char.ofNat 10

/-- The carriage return character. -/
def cr : Char := Char.ofNat 13

/-- An issue as the dashboard holds it in `this.issues`: a row of the list
response read from JSON. A field is `none` when the JSON value is `null`. -/
structure IssueJson where
  id : Nat
  title : Option String
  description : Option String
  category : Option String
  status : Option String
  priority : Option String
  address : Option String
  reporter_name : Option String
  reporter_email : Option String
  reporter_phone : Option String
  created_at : Option String
  updated_at : Option String
  admin_notes : Option String
deriving DecidableEq, Repr

/-- The function `Array.prototype.join`. -/
def joinWith (sep : String) (parts : List String) : String :=
  match parts with
  | [] => ""
  | [a] => a
  | a :: rest => a ++ sep ++ joinWith sep rest

/-- The replacement `.replace(/"/g, '""')`: every double quote becomes two. -/
def escapeQuotes (s : String) : String :=
  String.mk (s.toList.flatMap (fun c => if c = dquote then [dquote, dquote] else [c]))

/-- A field written as a template with the value, or the empty text for a
value that is absent or empty, between two double quotes, its own double
quotes doubled. -/
def quotedField (v : Option String) : String :=
  String.singleton dquote ++ escapeQuotes (v.getD "") ++ String.singleton dquote

/-- A field written as the value itself; `join` and `|| ''` both turn an
absent value into the empty text. -/
def plainField (v : Option String) : String :=
  v.getD ""

/-- The `headers` of `generateCSV`. -/
def csvHeaders : List String :=
  ["ID", "Title", "Description", "Category", "Status", "Priority", "Address",
    "Reporter Name", "Reporter Email", "Reporter Phone", "Created", "Updated", "Admin Notes"]

/-- The thirteen field texts `generateCSV` writes for one issue. -/
def csvFields (issue : IssueJson) : List String :=
  [ toString issue.id,
    quotedField issue.title,
    quotedField issue.description,
    plainField issue.category,
    plainField issue.status,
    plainField issue.priority,
    quotedField issue.address,
    quotedField issue.reporter_name,
    plainField issue.reporter_email,
    plainField issue.reporter_phone,
    plainField issue.created_at,
    plainField issue.updated_at,
    quotedField issue.admin_notes ]

/-- The method `AdminDashboard.generateCSV`. -/
def generateCSV (issues : List IssueJson) : String :=
  joinWith (String.singleton lf)
    (joinWith "," csvHeaders :: issues.map (fun issue => joinWith "," (csvFields issue)))

/-- An issue whose free-text fields hold commas, double quotes and a line
break. -/
def trickyIssue : IssueJson :=
  { id := 7
    title := some (String.mk ['S', 'i', 'g', 'n', ' ', dquote, 'S', 'T', 'O', 'P', dquote, ',', ' ', 'b', 'e', 'n', 't'])
    description := some (String.mk ['l', 'i', 'n', 'e', ' ', '1', lf, 'l', 'i', 'n', 'e', ' ', '2'])
    category := some "roads"
    status := some "reported"
    priority := some "medium"
    address := some "4 Main St, Ward 2"
    reporter_name := none
    reporter_email := some "asha@example.org"
    reporter_phone := none
    created_at := some "2024-05-01 10:00:00"
    updated_at := some "2024-05-01 10:00:00"
    admin_notes := none }

/-! ## A reader for RFC 4180 CSV

The export has no reader in the repository. The round trip is stated against
this reference reader of the RFC 4180 grammar: records of comma-separated
fields, a field either bare (no comma, double quote or line break in it) or
enclosed in double quotes with inner double quotes doubled, records ended by a
line break (CRLF, or a lone LF as the export writes it), the last one
optionally. -/

/-- Where the reader stands: at the start of a field, inside a bare field,
inside a quoted field, right after a double quote inside a quoted field, or
right after a carriage return that ended a record. -/
inductive CsvState where
  | fieldStart
  | bare
  | quoted
  | quoteSeen
  | crSeen
deriving DecidableEq, Repr

/-- The reader: `field` holds the characters of the field being read,
`record` the fields of the record being read, `records` the finished records.
`none` is a text outside the grammar. -/
def readCsvFrom (st : CsvState) (field : List Char) (record : List String)
    (records : List (List String)) (input : List Char) : Option (List (List String)) :=
  match input with
  | [] =>
    match st with
    | .fieldStart =>
      if record.isEmpty then some records else some (records ++ [record ++ [""]])
    | .bare => some (records ++ [record ++ [String.mk field]])
    | .quoted => none
    | .quoteSeen => some (records ++ [record ++ [String.mk field]])
    | .crSeen => none
  | c :: rest =>
    match st with
    | .fieldStart =>
      if c = dquote then readCsvFrom .quoted [] record records rest
      else if c = ',' then readCsvFrom .fieldStart [] (record ++ [""]) records rest
      else if c = lf then readCsvFrom .fieldStart [] [] (records ++ [record ++ [""]]) rest
      else if c = cr then readCsvFrom .crSeen [] [] (records ++ [record ++ [""]]) rest
      else readCsvFrom .bare [c] record records rest
    | .bare =>
      if c = dquote then none
      else if c = ',' then
        readCsvFrom .fieldStart [] (record ++ [String.mk field]) records rest
      else if c = lf then
        readCsvFrom .fieldStart [] [] (records ++ [record ++ [String.mk field]]) rest
      else if c = cr then
        readCsvFrom .crSeen [] [] (records ++ [record ++ [String.mk field]]) rest
      else readCsvFrom .bare (field ++ [c]) record records rest
    | .quoted =>
      if c = dquote then readCsvFrom .quoteSeen field record records rest
      else readCsvFrom .quoted (field ++ [c]) record records rest
    | .quoteSeen =>
      if c = dquote then readCsvFrom .quoted (field ++ [dquote]) record records rest
      else if c = ',' then
        readCsvFrom .fieldStart [] (record ++ [String.mk field]) records rest
      else if c = lf then
        readCsvFrom .fieldStart [] [] (records ++ [record ++ [String.mk field]]) rest
      else if c = cr then
        readCsvFrom .crSeen [] [] (records ++ [record ++ [String.mk field]]) rest
      else none
    | .crSeen =>
      if c = lf then readCsvFrom .fieldStart [] [] records rest else none

/-- The records of a CSV text, or `none` for a text outside the grammar. -/
def readCsv (text : String) : Option (List (List String)) :=
  readCsvFrom .fieldStart [] [] [] text.toList

/-- A text that may stand in a bare field: no comma, double quote or line
break in it. -/
def bareText (s : String) : Prop :=
  ∀ c ∈ s.toList, c ≠ ',' ∧ c ≠ dquote ∧ c ≠ lf ∧ c ≠ cr

instance (s : String) : Decidable (bareText s) := by
  unfold bareText
  infer_instance

/-- The thirteen values of an issue in column order, an absent text as the
empty text. -/
def csvValues (issue : IssueJson) : List String :=
  [ toString issue.id,
    issue.title.getD "",
    issue.description.getD "",
    issue.category.getD "",
    issue.status.getD "",
    issue.priority.getD "",
    issue.address.getD "",
    issue.reporter_name.getD "",
    issue.reporter_email.getD "",
    issue.reporter_phone.getD "",
    issue.created_at.getD "",
    issue.updated_at.getD "",
    issue.admin_notes.getD "" ]

/-- The columns the export writes without quotes hold bare text. -/
def bareColumns (issue : IssueJson) : Prop :=
  bareText (toString issue.id) ∧ bareText (issue.category.getD "") ∧
  bareText (issue.status.getD "") ∧ bareText (issue.priority.getD "") ∧
  bareText (issue.reporter_email.getD "") ∧ bareText (issue.reporter_phone.getD "") ∧
  bareText (issue.created_at.getD "") ∧ bareText (issue.updated_at.getD "")

instance (issue : IssueJson) : Decidable (bareColumns issue) := by
  unfold bareColumns
  infer_instance

/-! ## Pagination bar (`admin.js`) -/

/-- One piece of the HTML that `renderPagination` writes into the pagination
bar: the Previous button with its `disabled` flag and target page, a numbered
page button with its `active` flag, an ellipsis, the Next button, and the
`Showing first-last of total issues` line. -/
inductive PageElement where
  | previous (disabled : Bool) (target : Nat)
  | page (number : Nat) (active : Bool)
  | ellipsis
  | next (disabled : Bool) (target : Nat)
  | info (first last total : Nat)
deriving DecidableEq, Repr

/-- The method `AdminDashboard.renderPagination` as the list of pieces it
writes, empty when it clears the bar. `totalItems`, `itemsPerPage` and
`currentPage` are the fields of the dashboard; `Math.ceil` of the quotient is
`pageCount` for a positive `itemsPerPage`. -/
def renderPagination (totalItems itemsPerPage currentPage : Nat) : List PageElement :=
  let totalPages := pageCount totalItems itemsPerPage
  if totalPages ≤ 1 then []
  else
    let startPage := max 1 (currentPage - 2)
    let endPage := min totalPages (currentPage + 2)
    [PageElement.previous (currentPage == 1) (currentPage - 1)]
    ++ (if startPage > 1 then
          [PageElement.page 1 false] ++ (if startPage > 2 then [PageElement.ellipsis] else [])
        else [])
    ++ (List.range' startPage (endPage + 1 - startPage)).map
          (fun i => PageElement.page i (i == currentPage))
    ++ (if endPage < totalPages then
          (if endPage < totalPages - 1 then [PageElement.ellipsis] else [])
            ++ [PageElement.page totalPages false]
        else [])
    ++ [PageElement.next (currentPage == totalPages) (currentPage + 1)]
    ++ [PageElement.info ((currentPage - 1) * itemsPerPage + 1)
          (min (currentPage * itemsPerPage) totalItems) totalItems]

/-- The page numbers on the numbered buttons of a rendered bar, in order. -/
def pageButtons (bar : List PageElement) : List Nat :=
  bar.filterMap (fun e =>
    match e with
    | .page n _ => some n
    | _ => none)

/-- The numbered buttons and ellipses of a rendered bar, in order: `some n` for
the button of page `n`, `none` for an ellipsis. -/
def pageMarks (bar : List PageElement) : List (Option Nat) :=
  bar.filterMap (fun e =>
    match e with
    | .page n _ => some (some n)
    | .ellipsis => some none
    | _ => none)

/-- The marks that follow a button of page `prev`: each further page number
as a button, with an ellipsis in front of it exactly when it is more than one
above the number before it. -/
def gapsFrom (prev : Nat) (numbers : List Nat) : List (Option Nat) :=
  match numbers with
  | [] => []
  | b :: rest => (if b - prev > 1 then [none] else []) ++ some b :: gapsFrom b rest

/-- A row of page numbers as buttons, with an ellipsis between two
consecutive ones exactly when they differ by more than one. -/
def withGaps (numbers : List Nat) : List (Option Nat) :=
  match numbers with
  | [] => []
  | a :: rest => some a :: gapsFrom a rest

/-- The `Showing first-last of total` lines of a rendered bar. -/
def pageInfos (bar : List PageElement) : List (Nat × Nat × Nat) :=
  bar.filterMap (fun e =>
    match e with
    | .info a b n => some (a, b, n)
    | _ => none)

/-! ## The export contract in words -/

/-- A text with every double quote in it doubled. -/
def doubledQuotes (text : List Char) : List Char :=
  match text with
  | [] => []
  | c :: rest =>
    if c = dquote then dquote :: dquote :: doubledQuotes rest else c :: doubledQuotes rest

/-- A value enclosed in double quotes with every inner double quote doubled, an
absent value as the empty text. -/
def enclosedInQuotes (v : Option String) : List Char :=
  [dquote] ++ doubledQuotes (v.getD "").toList ++ [dquote]

/-- A value written as it is, an absent value as the empty text. -/
def writtenBare (v : Option String) : List Char :=
  (v.getD "").toList

/-- The data row of an issue as the amended contract describes it: thirteen
fields with a comma between them, of which title, description, address,
reporter name and admin notes are enclosed in quotes and the others are
written bare. -/
def rowAsDescribed (issue : IssueJson) : List Char :=
  (toString issue.id).toList ++ [','] ++ enclosedInQuotes issue.title ++ [','] ++
  enclosedInQuotes issue.description ++ [','] ++ writtenBare issue.category ++ [','] ++
  writtenBare issue.status ++ [','] ++ writtenBare issue.priority ++ [','] ++
  enclosedInQuotes issue.address ++ [','] ++ enclosedInQuotes issue.reporter_name ++ [','] ++
  writtenBare issue.reporter_email ++ [','] ++ writtenBare issue.reporter_phone ++ [','] ++
  writtenBare issue.created_at ++ [','] ++ writtenBare issue.updated_at ++ [','] ++
  enclosedInQuotes issue.admin_notes

/-- The data row of an issue with every one of its ten text fields enclosed in
quotes. -/
def rowAllQuoted (issue : IssueJson) : List Char :=
  (toString issue.id).toList ++ [','] ++ enclosedInQuotes issue.title ++ [','] ++
  enclosedInQuotes issue.description ++ [','] ++ enclosedInQuotes issue.category ++ [','] ++
  enclosedInQuotes issue.status ++ [','] ++ enclosedInQuotes issue.priority ++ [','] ++
  enclosedInQuotes issue.address ++ [','] ++ enclosedInQuotes issue.reporter_name ++ [','] ++
  enclosedInQuotes issue.reporter_email ++ [','] ++ enclosedInQuotes issue.reporter_phone ++ [','] ++
  writtenBare issue.created_at ++ [','] ++ writtenBare issue.updated_at ++ [','] ++
  enclosedInQuotes issue.admin_notes

/-! ## Lemmas on the store -/

theorem le_maxRowid {rows : List Issue} {r : Issue} (h : r ∈ rows) : r.id ≤ maxRowid rows := by
  induction rows with
  | nil => cases h
  | cons a t ih =>
    simp only [maxRowid, List.foldr_cons] at *
    rcases List.mem_cons.mp h with h | h
    · subst h; exact Nat.le_max_left _ _
    · exact le_trans (ih h) (Nat.le_max_right _ _)

theorem id_lt_nextRowid {s : Store} {r : Issue} (h : r ∈ s.rows) : r.id < nextRowid s := by
  have := le_maxRowid h
  unfold nextRowid
  omega

/-- What a successful create did: the upload passed, the three required
fields were present, and the row was appended under the next rowid. -/
theorem create_ok_inv {s s' : Store} {now : Nat} {req : CreateRequest} {body : CreateOk}
    (h : create s now req = (s', .ok body)) :
    ∃ title description category,
      req.title = some title ∧ req.description = some description ∧
      req.category = some category ∧ uploadSingle req.file = none ∧
      body = ⟨nextRowid s, "Issue reported successfully", "reported"⟩ ∧
      s' = ⟨s.rows ++ [insertedRow (nextRowid s) now title description category req
              (req.file.map (fun f => f.filename))], nextRowid s⟩ := by
  unfold create at h
  cases hu : uploadSingle req.file with
  | some msg => simp [hu] at h
  | none =>
    simp only [hu] at h
    unfold insertIssue at h
    cases ht : req.title with
    | none => simp [ht] at h
    | some title =>
      cases hd : req.description with
      | none => simp [ht, hd] at h
      | some description =>
        cases hc : req.category with
        | none => simp [ht, hd, hc] at h
        | some category =>
          simp only [ht, hd, hc, Prod.mk.injEq, Response.ok.injEq] at h
          exact ⟨title, description, category, rfl, rfl, rfl, rfl, h.2.symm, h.1.symm⟩

theorem find_appended {rows : List Issue} {row : Issue} (h : ∀ r ∈ rows, r.id ≠ row.id) :
    (rows ++ [row]).find? (fun r => r.id == row.id) = some row := by
  induction rows with
  | nil => simp
  | cons a t ih =>
    have ha : a.id ≠ row.id := h a (List.mem_cons_self _ _)
    have ht := ih (fun r hr => h r (List.mem_cons_of_mem _ hr))
    simp [List.find?_cons, ha, ht]

/-! ## Create and read back -/

/-- C1: whatever the create request carries in its `status` field (or any
other field), a create that goes through appends exactly one row, that row has
the rowid the response reports and status `reported`, and the response itself
reports status `reported`. -/
theorem create_status_reported (s s' : Store) (now : Nat) (req : CreateRequest) (body : CreateOk)
    (h : create s now req = (s', .ok body)) :
    body.status = "reported" ∧
    ∃ row, s'.rows = s.rows ++ [row] ∧ row.id = body.id ∧ row.status = some "reported" := by
  obtain ⟨title, description, category, -, -, -, -, hb, hs⟩ := create_ok_inv h
  subst hb hs
  exact ⟨rfl, _, rfl, rfl, rfl⟩

theorem create_status_reported_witness :
    create Store.empty 100 fullRequest =
        ((create Store.empty 100 fullRequest).1, .ok ⟨1, "Issue reported successfully", "reported"⟩) ∧
      fullRequest.status = some "resolved" ∧
      ((⟨1, "Issue reported successfully", "reported"⟩ : CreateOk).status = "reported" ∧
        ∃ row, (create Store.empty 100 fullRequest).1.rows = Store.empty.rows ++ [row] ∧
          row.id = (⟨1, "Issue reported successfully", "reported"⟩ : CreateOk).id ∧
          row.status = some "reported") :=
  ⟨by decide, by decide, create_status_reported Store.empty _ 100 fullRequest _ (by decide)⟩

/-- C2, as amended: after a create that succeeds with id `i`, `getById i`
returns an issue whose title, description, category, address and reporter
fields are the submitted ones, whose latitude and longitude are the submitted
ones as a `REAL` column holds them (absent as `NULL`, numeric text as the
number it denotes, any other text as it is), with status `reported` and
priority `medium` (in particular when the request carries neither). -/
theorem create_getById_roundtrip (s s' : Store) (now : Nat) (req : CreateRequest) (body : CreateOk)
    (h : create s now req = (s', .ok body)) :
    ∃ row, getById s' body.id = .ok row ∧
      some row.title = req.title ∧ some row.description = req.description ∧
      some row.category = req.category ∧
      row.latitude = realAffinity req.latitude ∧ row.longitude = realAffinity req.longitude ∧
      (req.latitude = none → row.latitude = .null) ∧
      (req.longitude = none → row.longitude = .null) ∧
      (∀ v, req.latitude = some v → parseNumeric v = none → row.latitude = .text v) ∧
      (∀ v, req.longitude = some v → parseNumeric v = none → row.longitude = .text v) ∧
      (∀ v d, req.latitude = some v → parseNumeric v = some d → row.latitude = .number d) ∧
      (∀ v d, req.longitude = some v → parseNumeric v = some d → row.longitude = .number d) ∧
      row.address = req.address ∧ row.reporter_name = req.reporter_name ∧
      row.reporter_email = req.reporter_email ∧ row.reporter_phone = req.reporter_phone ∧
      row.status = some "reported" ∧ row.priority = some "medium" := by
  obtain ⟨title, description, category, ht, hd, hc, -, hb, hs⟩ := create_ok_inv h
  subst hb hs
  refine ⟨insertedRow (nextRowid s) now title description category req
    (req.file.map (fun f => f.filename)), ?_, ht.symm, hd.symm, hc.symm,
    rfl, rfl, ?_, ?_, ?_, ?_, ?_, ?_, rfl, rfl, rfl, rfl, rfl, rfl⟩
  · have hfind := @find_appended s.rows
      (insertedRow (nextRowid s) now title description category req
        (req.file.map (fun f => f.filename)))
      (fun r hr => Nat.ne_of_lt (id_lt_nextRowid hr))
    simp only [getById]
    rw [show (insertedRow (nextRowid s) now title description category req
        (req.file.map (fun f => f.filename))).id = nextRowid s from rfl] at hfind
    rw [hfind]
  · intro hv; simp [insertedRow, realAffinity, hv]
  · intro hv; simp [insertedRow, realAffinity, hv]
  · intro v hv hp; simp [insertedRow, realAffinity, hv, hp]
  · intro v hv hp; simp [insertedRow, realAffinity, hv, hp]
  · intro v d hv hp; simp [insertedRow, realAffinity, hv, hp]
  · intro v d hv hp; simp [insertedRow, realAffinity, hv, hp]

theorem create_getById_roundtrip_witness :
    create sampleStore 200 decimalRequest =
        ((create sampleStore 200 decimalRequest).1,
          .ok ⟨4, "Issue reported successfully", "reported"⟩) ∧
      ∃ row, getById (create sampleStore 200 decimalRequest).1
            (⟨4, "Issue reported successfully", "reported"⟩ : CreateOk).id = .ok row ∧
        some row.title = decimalRequest.title ∧
        some row.description = decimalRequest.description ∧
        some row.category = decimalRequest.category ∧
        row.latitude = realAffinity decimalRequest.latitude ∧
        row.longitude = realAffinity decimalRequest.longitude ∧
        (decimalRequest.latitude = none → row.latitude = .null) ∧
        (decimalRequest.longitude = none → row.longitude = .null) ∧
        (∀ v, decimalRequest.latitude = some v → parseNumeric v = none →
          row.latitude = .text v) ∧
        (∀ v, decimalRequest.longitude = some v → parseNumeric v = none →
          row.longitude = .text v) ∧
        (∀ v d, decimalRequest.latitude = some v → parseNumeric v = some d →
          row.latitude = .number d) ∧
        (∀ v d, decimalRequest.longitude = some v → parseNumeric v = some d →
          row.longitude = .number d) ∧
        row.address = decimalRequest.address ∧
        row.reporter_name = decimalRequest.reporter_name ∧
        row.reporter_email = decimalRequest.reporter_email ∧
        row.reporter_phone = decimalRequest.reporter_phone ∧
        row.status = some "reported" ∧ row.priority = some "medium" :=
  ⟨by decide, create_getById_roundtrip sampleStore _ 200 decimalRequest _ (by decide)⟩

/-- C2, as stated, fails: a create with latitude `12.50` and longitude `1e2`
is read back with the numbers 12.5 and 100 in their place, not with the texts
that were submitted. -/
theorem coordinates_not_as_submitted :
    (create Store.empty 100 decimalRequest).2
        = .ok ⟨1, "Issue reported successfully", "reported"⟩ ∧
      getById (create Store.empty 100 decimalRequest).1 1
        = .ok (insertedRow 1 100 "Pothole" "Deep pothole near the bus stop" "roads"
            decimalRequest none) ∧
      (insertedRow 1 100 "Pothole" "Deep pothole near the bus stop" "roads"
          decimalRequest none).latitude = .number ⟨false, 125, -1⟩ ∧
      (insertedRow 1 100 "Pothole" "Deep pothole near the bus stop" "roads"
          decimalRequest none).longitude = .number ⟨false, 1, 2⟩ ∧
      (insertedRow 1 100 "Pothole" "Deep pothole near the bus stop" "roads"
          decimalRequest none).latitude ≠ asSubmitted decimalRequest.latitude ∧
      (insertedRow 1 100 "Pothole" "Deep pothole near the bus stop" "roads"
          decimalRequest none).longitude ≠ asSubmitted decimalRequest.longitude := by
  decide

/-! ## Lemmas on paging -/

theorem limitOffset_nat (L k : Nat) (rows : List Issue) :
    limitOffset (L : Int) (((k : Int) + 1 - 1) * (L : Int)) rows = (rows.drop (k * L)).take L := by
  have h1 : ((k : Int) + 1 - 1) * (L : Int) = ((k * L : Nat) : Int) := by
    push_cast; ring
  have h2 : ¬ ((L : Int) < 0) := by omega
  simp only [limitOffset, h1, Int.toNat_ofNat, h2, if_false]

/-- Cutting a list into `m` consecutive pages of `L` rows and gluing the pages
together gives the list back, once the pages reach its end. -/
theorem pages_concat (L : Nat) :
    ∀ (m : Nat) (l : List Issue), l.length ≤ m * L →
      (List.range m).flatMap (fun k => (l.drop (k * L)).take L) = l := by
  intro m
  induction m with
  | zero =>
    intro l h
    have : l = [] := List.eq_nil_of_length_eq_zero (by omega)
    simp [this]
  | succ m ih =>
    intro l h
    rw [List.range_succ_eq_map, List.flatMap_cons, List.flatMap_map]
    have hlen : (l.drop L).length ≤ m * L := by
      rw [List.length_drop]
      have : (m + 1) * L = m * L + L := by ring
      omega
    have hrest : ((List.range m).flatMap fun a => List.take L (List.drop (Nat.succ a * L) l))
        = (List.range m).flatMap (fun k => ((l.drop L).drop (k * L)).take L) := by
      congr 1
      funext k
      rw [List.drop_drop]
      congr 2
      have : Nat.succ k * L = L + k * L := by rw [Nat.succ_mul]; omega
      exact this
    rw [hrest, ih (l.drop L) hlen]
    simp

theorem le_pageCount_mul (n L : Nat) (hL : 0 < L) : n ≤ pageCount n L * L := by
  unfold pageCount
  have h := Nat.div_add_mod (n + L - 1) L
  have h2 := Nat.mod_lt (n + L - 1) hL
  have h3 : L * ((n + L - 1) / L) = (n + L - 1) / L * L := Nat.mul_comm _ _
  omega

theorem whereClause_none (r : Issue) : whereClause none none r = true := by
  simp [whereClause, truthy]

theorem newerFirst_total (a b : Issue) : newerFirst a b ∨ newerFirst b a := by
  unfold newerFirst; omega

instance : IsTotal Issue newerFirst := ⟨newerFirst_total⟩

instance : IsTrans Issue newerFirst := ⟨fun a b c hab hbc => by
  unfold newerFirst at *; omega⟩

theorem orderBy_sorted (rows : List Issue) : (orderBy rows).Pairwise newerFirst :=
  List.sorted_insertionSort newerFirst rows

theorem orderBy_perm (rows : List Issue) : (orderBy rows).Perm rows :=
  List.perm_insertionSort newerFirst rows

theorem limitOffset_sublist (limit offset : Int) (rows : List Issue) :
    (limitOffset limit offset rows).Sublist rows := by
  unfold limitOffset
  split
  · exact List.drop_sublist _ _
  · exact (List.take_sublist _ _).trans (List.drop_sublist _ _)

theorem limitOffset_window (L p : Nat) (hp : 0 < p) (rows : List Issue) :
    limitOffset (L : Int) (((p : Int) - 1) * (L : Int)) rows = (rows.drop ((p - 1) * L)).take L := by
  obtain ⟨k, rfl⟩ : ∃ k, p = k + 1 := ⟨p - 1, by omega⟩
  have h := limitOffset_nat L k rows
  simp only [Nat.cast_add, Nat.cast_one, Nat.add_sub_cancel] at h ⊢
  exact h

theorem whereClause_iff (status category : Option String) (r : Issue) :
    whereClause status category r = true ↔ matchesFilter status category r := by
  cases status with
  | none =>
    cases category with
    | none => simp [whereClause, truthy, matchesFilter]
    | some c =>
      by_cases hc : c = ""
      · simp [whereClause, truthy, matchesFilter, hc]
      · simp [whereClause, truthy, matchesFilter, hc]
  | some v =>
    by_cases hv : v = ""
    · cases category with
      | none => simp [whereClause, truthy, matchesFilter, hv]
      | some c =>
        by_cases hc : c = ""
        · simp [whereClause, truthy, matchesFilter, hv, hc]
        · simp [whereClause, truthy, matchesFilter, hv, hc]
    · cases category with
      | none => simp [whereClause, truthy, matchesFilter, hv]
      | some c =>
        by_cases hc : c = ""
        · simp [whereClause, truthy, matchesFilter, hv, hc]
        · simp [whereClause, truthy, matchesFilter, hv, hc]

/-- Inserting a row with a smaller rowid than all rows of a list that is sorted
newest first with ties in rowid order keeps the list so sorted. -/
theorem orderedInsert_ties (a : Issue) :
    ∀ t : List Issue,
      t.Pairwise (fun x y => newerFirst x y ∧ (x.created_at = y.created_at → x.id < y.id)) →
      (∀ c ∈ t, a.id < c.id) →
      (t.orderedInsert newerFirst a).Pairwise
        (fun x y => newerFirst x y ∧ (x.created_at = y.created_at → x.id < y.id)) := by
  intro t
  induction t with
  | nil => intro _ _; simp
  | cons b t ih =>
    intro hp hid
    have hb : a.id < b.id := hid b (List.mem_cons_self _ _)
    have ht : ∀ c ∈ t, a.id < c.id := fun c hc => hid c (List.mem_cons_of_mem _ hc)
    rw [List.pairwise_cons] at hp
    simp only [List.orderedInsert]
    split
    · rename_i hab
      refine List.Pairwise.cons ?_ (List.Pairwise.cons hp.1 hp.2)
      intro x hx
      rcases List.mem_cons.mp hx with hx | hx
      · subst hx; exact ⟨hab, fun _ => hb⟩
      · have hbx := (hp.1 x hx).1
        unfold newerFirst at hab hbx ⊢
        exact ⟨by omega, fun _ => ht x hx⟩
    · rename_i hab
      refine List.Pairwise.cons ?_ (ih hp.2 ht)
      intro y hy
      rcases (List.mem_orderedInsert newerFirst).mp hy with hy | hy
      · subst hy
        unfold newerFirst at hab ⊢
        exact ⟨by omega, fun h => by omega⟩
      · exact hp.1 y hy

theorem orderBy_ties :
    ∀ rows : List Issue, rows.Pairwise (fun a b => a.id < b.id) →
      (orderBy rows).Pairwise
        (fun x y => newerFirst x y ∧ (x.created_at = y.created_at → x.id < y.id)) := by
  intro rows
  induction rows with
  | nil => intro _; simp [orderBy]
  | cons a t ih =>
    intro hp
    rw [List.pairwise_cons] at hp
    simp only [orderBy, List.insertionSort] at ih ⊢
    apply orderedInsert_ties a _ (ih hp.2)
    intro c hc
    exact hp.1 c ((List.mem_insertionSort newerFirst).mp hc)

/-! ## The list contract -/

/-- In exact arithmetic the pages `1 .. ceil (n / L)` of the unfiltered list,
concatenated, are a rearrangement of the table, newest first. -/
theorem allPages_perm_sorted (s : Store) (L : Nat) (hL : 0 < L) :
    (allPages s L).Perm s.rows ∧
    (allPages s L).Pairwise (fun a b => b.created_at ≤ a.created_at) := by
  have hall : allPages s L = orderBy s.rows := by
    unfold allPages
    have hfilter : s.rows.filter (whereClause none none) = s.rows := by
      rw [List.filter_eq_self]
      intro r _
      exact whereClause_none r
    have hpage : ∀ k : Nat, (list s (noFilter ((k : Int) + 1) (L : Int))).issues
        = ((orderBy s.rows).drop (k * L)).take L := by
      intro k
      simp only [list, noFilter, Option.getD_some, hfilter]
      exact limitOffset_nat L k _
    simp only [hpage]
    apply pages_concat
    rw [orderBy, List.length_insertionSort]
    exact le_pageCount_mul _ _ hL
  rw [hall]
  exact ⟨orderBy_perm _, orderBy_sorted _⟩

/-- C4, as amended: the issues returned by list run from the newest
`created_at` to the oldest, and two returned issues with the same `created_at`
come in table order, the smaller id first. -/
theorem list_order (s : Store) (q : ListQuery) :
    (list s q).issues.Pairwise (fun a b => b.created_at ≤ a.created_at) ∧
    (s.rowidOrdered →
      (list s q).issues.Pairwise (fun a b => a.created_at = b.created_at → a.id < b.id)) := by
  constructor
  · exact (orderBy_sorted _).sublist (limitOffset_sublist _ _ _)
  · intro h
    have h1 := orderBy_ties _ (List.Pairwise.filter (whereClause q.status q.category) h)
    have h2 := h1.sublist (limitOffset_sublist (q.limit.getD 10)
      ((q.page.getD 1 - 1) * q.limit.getD 10) _)
    exact h2.imp (fun hab => hab.2)

theorem list_order_witness :
    sampleStore.rowidOrdered ∧
      (list sampleStore (noFilter 1 10)).issues.Pairwise (fun a b => b.created_at ≤ a.created_at) ∧
      (list sampleStore (noFilter 1 10)).issues.Pairwise
        (fun a b => a.created_at = b.created_at → a.id < b.id) :=
  ⟨by decide, (list_order sampleStore (noFilter 1 10)).1,
    (list_order sampleStore (noFilter 1 10)).2 (by decide)⟩

/-- C4, as stated, fails: issues 1 and 2 of the sample store were created in
the same second, and the first page lists them as 3, 1, 2, so the tie is not
in id-descending order. -/
theorem list_ties_not_id_descending :
    (list sampleStore (noFilter 1 10)).issues.map (fun r => (r.id, r.created_at))
        = [(3, 101), (1, 100), (2, 100)] ∧
      ¬ (list sampleStore (noFilter 1 10)).issues.Pairwise
          (fun a b => b.created_at ≤ a.created_at ∧ (a.created_at = b.created_at → b.id < a.id)) := by
  decide

/-- In exact arithmetic the page is the window of `limit` rows that starts at
position `(page - 1) * limit` of the ordered matching rows. -/
theorem list_window (s : Store) (status category priority search : Option String)
    (page limit : Nat) (hp : 0 < page) :
    (list s ⟨status, category, some page, some limit, priority, search⟩).issues
        = ((orderBy (s.rows.filter (whereClause status category))).drop
            ((page - 1) * limit)).take limit ∧
    (∀ i, i < limit →
      (list s ⟨status, category, some page, some limit, priority, search⟩).issues[i]?
        = (orderBy (s.rows.filter (whereClause status category)))[(page - 1) * limit + i]?) ∧
    (list s ⟨status, category, some page, some limit, priority, search⟩).issues.length ≤ limit ∧
    list s ⟨status, category, none, none, priority, search⟩
        = list s ⟨status, category, some 1, some 10, priority, search⟩ := by
  have hwin : (list s ⟨status, category, some page, some limit, priority, search⟩).issues
      = ((orderBy (s.rows.filter (whereClause status category))).drop
          ((page - 1) * limit)).take limit := by
    simp only [list, Option.getD_some]
    exact limitOffset_window limit page hp _
  refine ⟨hwin, ?_, ?_, rfl⟩
  · intro i hi
    rw [hwin, List.getElem?_take_of_lt hi, List.getElem?_drop]
  · rw [hwin, List.length_take]
    exact Nat.min_le_left _ _

/-- C6: with a positive limit, an issue turns up on some page of the list
exactly when it is stored and matches every filter that is given and not
empty: its status equals the status filter, its category the category filter;
an absent or empty filter constrains nothing. -/
theorem list_eligible_iff (s : Store) (status category priority search : Option String)
    (limit : Nat) (hl : 0 < limit) (r : Issue) :
    (∃ page : Nat, 0 < page ∧
        r ∈ (list s ⟨status, category, some page, some limit, priority, search⟩).issues) ↔
      r ∈ s.rows ∧ matchesFilter status category r := by
  have hmem : r ∈ orderBy (s.rows.filter (whereClause status category)) ↔
      r ∈ s.rows ∧ matchesFilter status category r := by
    rw [(orderBy_perm _).mem_iff, List.mem_filter, whereClause_iff]
  have hwin : ∀ page : Nat, 0 < page →
      (list s ⟨status, category, some page, some limit, priority, search⟩).issues
        = ((orderBy (s.rows.filter (whereClause status category))).drop
            ((page - 1) * limit)).take limit := by
    intro page hp
    simp only [list, Option.getD_some]
    exact limitOffset_window limit page hp _
  constructor
  · rintro ⟨page, hp, hr⟩
    rw [hwin page hp] at hr
    exact hmem.mp (List.mem_of_mem_drop (List.mem_of_mem_take hr))
  · intro h
    have hr := hmem.mpr h
    have hcat := pages_concat limit
      (pageCount (orderBy (s.rows.filter (whereClause status category))).length limit)
      (orderBy (s.rows.filter (whereClause status category)))
      (le_pageCount_mul _ _ hl)
    rw [← hcat, List.mem_flatMap] at hr
    obtain ⟨k, -, hk⟩ := hr
    refine ⟨k + 1, Nat.succ_pos k, ?_⟩
    rw [hwin (k + 1) (Nat.succ_pos k)]
    simpa using hk

theorem list_eligible_iff_witness :
    0 < 2 ∧
      ((∃ page : Nat, 0 < page ∧
          firstIssue ∈
            (list sampleStore
              ⟨some "reported", some "", some page, some ((2 : Nat) : Int), some "high", none⟩).issues) ↔
        firstIssue ∈ sampleStore.rows ∧ matchesFilter (some "reported") (some "") firstIssue) :=
  ⟨by decide, list_eligible_iff sampleStore (some "reported") (some "") (some "high") none 2
    (by decide) firstIssue⟩

/-- C7: the `total` of a list response is the number of stored issues that
match the status and category filter, whatever `page` and `limit` are. -/
theorem list_total (s : Store) (q : ListQuery) :
    (list s q).total = s.rows.countP (fun r => decide (matchesFilter q.status q.category r)) ∧
    ∀ page limit : Option Int,
      (list s ⟨q.status, q.category, page, limit, q.priority, q.search⟩).total
        = (list s q).total := by
  refine ⟨?_, fun _ _ => rfl⟩
  simp only [list]
  rw [← List.countP_eq_length_filter]
  congr 1
  funext r
  rw [Bool.eq_iff_iff, decide_eq_true_iff]
  exact whereClause_iff _ _ r

/-- C8: two list requests with the same status, category, page and limit get
the same response, whatever their `priority` and `search` parameters are. -/
theorem list_ignores_priority_search (s : Store) (q1 q2 : ListQuery)
    (hs : q1.status = q2.status) (hc : q1.category = q2.category)
    (hp : q1.page = q2.page) (hl : q1.limit = q2.limit) :
    list s q1 = list s q2 := by
  simp only [list, hs, hc, hp, hl]

theorem list_ignores_priority_search_witness :
    (⟨some "reported", none, some 1, some 2, some "high", some "pothole"⟩ : ListQuery).status
        = (⟨some "reported", none, some 1, some 2, none, none⟩ : ListQuery).status ∧
      list sampleStore ⟨some "reported", none, some 1, some 2, some "high", some "pothole"⟩
        = list sampleStore ⟨some "reported", none, some 1, some 2, none, none⟩ :=
  ⟨rfl, list_ignores_priority_search sampleStore
    ⟨some "reported", none, some 1, some 2, some "high", some "pothole"⟩
    ⟨some "reported", none, some 1, some 2, none, none⟩ rfl rfl rfl rfl⟩

/-! ## The status update -/

/-- C9: an update of an id that no stored issue has answers 404 `Issue not
found` and leaves the store as it was. -/
theorem updateStatus_not_found (s : Store) (now id : Nat) (status admin_notes : Option String)
    (h : ∀ r ∈ s.rows, r.id ≠ id) :
    updateStatus s now id status admin_notes = (s, .error 404 "Issue not found") := by
  have hchanges : (s.rows.filter (fun r => r.id == id)).length = 0 := by
    rw [List.length_eq_zero, List.filter_eq_nil_iff]
    intro r hr
    simpa using h r hr
  have hrows : s.rows.map
      (fun r => if r.id == id then setStatus now status admin_notes r else r) = s.rows := by
    calc s.rows.map (fun r => if r.id == id then setStatus now status admin_notes r else r)
        = s.rows.map (fun r => r) :=
          List.map_congr_left (fun r hr => by have := h r hr; simp [this])
      _ = s.rows := by simp
  simp only [updateStatus, hchanges, if_true, hrows]

theorem updateStatus_not_found_witness :
    (∀ r ∈ sampleStore.rows, r.id ≠ 99) ∧
      updateStatus sampleStore 300 99 (some "resolved") (some "done")
        = (sampleStore, .error 404 "Issue not found") :=
  ⟨by decide, updateStatus_not_found sampleStore 300 99 (some "resolved") (some "done") (by decide)⟩

theorem getById_ok_inv {s : Store} {id : Nat} {row : Issue} (h : getById s id = .ok row) :
    s.rows.find? (fun r => r.id == id) = some row := by
  unfold getById at h
  cases hf : s.rows.find? (fun r => r.id == id) with
  | none => simp [hf] at h
  | some r =>
    simp only [hf, Response.ok.injEq] at h
    rw [h]

theorem setStatus_id (now : Nat) (status admin_notes : Option String) (r : Issue) :
    (setStatus now status admin_notes r).id = r.id := rfl

/-- C10: an update of an existing id succeeds; with a clock that has not run
backwards since the row was last written, the row then carries the current
time as `updated_at`, which is at least its prior `updated_at`, and its
`created_at` is what it was. -/
theorem updateStatus_refreshes_updated_at (s : Store) (now id : Nat)
    (status admin_notes : Option String) (row : Issue)
    (hrow : getById s id = .ok row) (hclock : row.updated_at ≤ now) :
    (updateStatus s now id status admin_notes).2 = .ok "Issue status updated successfully" ∧
    ∃ row', getById (updateStatus s now id status admin_notes).1 id = .ok row' ∧
      row'.updated_at = now ∧ row.updated_at ≤ row'.updated_at ∧
      row'.created_at = row.created_at := by
  have hfind := getById_ok_inv hrow
  have hmem : row ∈ s.rows := List.mem_of_find?_eq_some hfind
  have hid : (row.id == id) = true :=
    @List.find?_some Issue (fun r => r.id == id) row s.rows hfind
  have hchanges : (s.rows.filter (fun r => r.id == id)).length ≠ 0 := by
    intro h0
    rw [List.length_eq_zero, List.filter_eq_nil_iff] at h0
    exact h0 row hmem hid
  have hcomp : ((fun r : Issue => r.id == id) ∘
      (fun r => if r.id == id then setStatus now status admin_notes r else r))
      = (fun r : Issue => r.id == id) := by
    funext r
    simp only [Function.comp]
    split <;> simp_all [setStatus_id]
  have hstore : (updateStatus s now id status admin_notes).1
      = ⟨s.rows.map (fun r => if r.id == id then setStatus now status admin_notes r else r),
          s.seq⟩ := by
    simp only [updateStatus]
    split <;> rfl
  refine ⟨?_, setStatus now status admin_notes row, ?_, rfl, hclock, rfl⟩
  · simp only [updateStatus, hchanges, if_false]
  · rw [hstore]
    simp only [getById]
    rw [List.find?_map, hcomp, hfind]
    have hid' : row.id = id := by simpa using hid
    simp [hid']

theorem updateStatus_refreshes_updated_at_witness :
    getById sampleStore 1 = .ok firstIssue ∧ firstIssue.updated_at ≤ 300 ∧
      ((updateStatus sampleStore 300 1 (some "in_progress") (some "crew sent")).2
          = .ok "Issue status updated successfully" ∧
        ∃ row', getById (updateStatus sampleStore 300 1 (some "in_progress") (some "crew sent")).1 1
            = .ok row' ∧
          row'.updated_at = 300 ∧ firstIssue.updated_at ≤ row'.updated_at ∧
          row'.created_at = firstIssue.created_at) :=
  ⟨by decide, by decide,
    updateStatus_refreshes_updated_at sampleStore 300 1 (some "in_progress") (some "crew sent")
      firstIssue (by decide) (by decide)⟩

theorem updateStatus_store (s : Store) (now id : Nat) (status admin_notes : Option String) :
    (updateStatus s now id status admin_notes).1
      = ⟨s.rows.map (fun r => if r.id == id then setStatus now status admin_notes r else r),
          s.seq⟩ := by
  simp only [updateStatus]
  split <;> rfl

/-- C11: a status update changes, in the issue with the given id, only
`status` (to the given status), `admin_notes` (to the given notes) and
`updated_at`; every other field of that issue and every issue with another id
is as before, no row is added or removed, and the stored ids are the same. -/
theorem updateStatus_frame (s : Store) (now id : Nat) (status admin_notes : Option String) :
    List.Forall₂
      (fun r r' =>
        (r.id ≠ id → r' = r) ∧
        (r.id = id →
          r'.status = status ∧ r'.admin_notes = admin_notes ∧ r'.updated_at = now ∧
          r'.id = r.id ∧ r'.title = r.title ∧ r'.description = r.description ∧
          r'.category = r.category ∧ r'.priority = r.priority ∧
          r'.latitude = r.latitude ∧ r'.longitude = r.longitude ∧
          r'.address = r.address ∧ r'.image_path = r.image_path ∧
          r'.reporter_name = r.reporter_name ∧ r'.reporter_email = r.reporter_email ∧
          r'.reporter_phone = r.reporter_phone ∧ r'.created_at = r.created_at))
      s.rows (updateStatus s now id status admin_notes).1.rows ∧
    storedIds (updateStatus s now id status admin_notes).1 = storedIds s ∧
    (updateStatus s now id status admin_notes).1.seq = s.seq := by
  rw [updateStatus_store]
  refine ⟨?_, ?_, rfl⟩
  · rw [List.forall₂_map_right_iff, List.forall₂_same]
    intro r _
    by_cases h : r.id = id
    · simp [h, setStatus]
    · simp [h]
  · simp only [storedIds, List.map_map]
    apply List.map_congr_left
    intro r _
    simp only [Function.comp]
    split <;> rfl

/-! ## Statistics -/

theorem countStatus_eq (rows : List Issue) (status : String) :
    countStatus rows status = rows.countP (fun r => decide (r.status = some status)) := by
  unfold countStatus
  congr 1
  funext r
  rw [Bool.eq_iff_iff]
  simp

theorem groupKeys_perm (rows : List Issue) :
    (groupKeys rows).Perm ((rows.map (fun r => r.category)).dedup) :=
  List.perm_insertionSort _ _

theorem categoryCounts_perm (rows : List Issue) :
    (categoryCounts rows).Perm
      ((groupKeys rows).map
        (fun c => (⟨c, rows.countP (fun r => r.category == c)⟩ : CategoryCount))) :=
  (List.reverse_perm _).trans (List.perm_insertionSort _ _)

theorem categoryCounts_keys (rows : List Issue) :
    ((categoryCounts rows).map (fun e => e.category)).Perm
      ((rows.map (fun r => r.category)).dedup) := by
  have h := (categoryCounts_perm rows).map (fun e => e.category)
  rw [List.map_map] at h
  have hid : ((fun e : CategoryCount => e.category) ∘
      fun c => (⟨c, rows.countP (fun r => r.category == c)⟩ : CategoryCount)) = fun c => c := by
    funext c; rfl
  rw [hid, List.map_id'] at h
  exact h.trans (groupKeys_perm rows)

theorem categoryCounts_sorted (rows : List Issue) :
    (categoryCounts rows).Pairwise (fun a b => b.count ≤ a.count) := by
  unfold categoryCounts
  rw [List.pairwise_reverse]
  exact @List.sorted_insertionSort CategoryCount (fun a b => a.count ≤ b.count) _
    ⟨fun a b => Nat.le_total a.count b.count⟩
    ⟨fun _ _ _ hab hbc => Nat.le_trans hab hbc⟩ _

/-- C12: stats returns the number of stored issues as `total`, the number of
issues with status `reported`, `in_progress` and `resolved` as `reported`,
`inProgress` and `resolved`, and as `categories` one entry for each distinct
stored category with the number of issues of that category, the counts never
increasing along the list. After three issues left `reported` and one taken
`in_progress` it answers total 4, reported 3, inProgress 1, resolved 0. -/
theorem stats_counts (s : Store) :
    (stats s).total = s.rows.length ∧
    (stats s).reported = s.rows.countP (fun r => decide (r.status = some "reported")) ∧
    (stats s).inProgress = s.rows.countP (fun r => decide (r.status = some "in_progress")) ∧
    (stats s).resolved = s.rows.countP (fun r => decide (r.status = some "resolved")) ∧
    ((stats s).categories.map (fun e => e.category)).Nodup ∧
    (∀ c, c ∈ (stats s).categories.map (fun e => e.category) ↔ ∃ r ∈ s.rows, r.category = c) ∧
    (∀ e ∈ (stats s).categories,
      e.count = s.rows.countP (fun r => decide (r.category = e.category))) ∧
    (stats s).categories.Pairwise (fun a b => b.count ≤ a.count) ∧
    stats (run Store.empty sampleOps) = ⟨4, 3, 1, 0, [⟨"lighting", 3⟩, ⟨"roads", 1⟩]⟩ := by
  refine ⟨rfl, countStatus_eq _ _, countStatus_eq _ _, countStatus_eq _ _, ?_, ?_, ?_,
    categoryCounts_sorted _, by decide⟩
  · exact (categoryCounts_keys s.rows).nodup_iff.mpr (List.nodup_dedup _)
  · intro c
    show c ∈ (categoryCounts s.rows).map (fun e => e.category) ↔ _
    rw [(categoryCounts_keys s.rows).mem_iff, List.mem_dedup, List.mem_map]
  · intro e he
    have he' : e ∈ categoryCounts s.rows := he
    rw [(categoryCounts_perm s.rows).mem_iff, List.mem_map] at he'
    obtain ⟨c, -, rfl⟩ := he'
    show s.rows.countP (fun r => r.category == c) = _
    congr 1

/-! ## Invariants along sequences of requests -/

/-- A create either fails and leaves the store alone, or appends one row under
the next rowid and reports that rowid. -/
theorem create_cases (s : Store) (now : Nat) (req : CreateRequest) :
    (∃ msg, create s now req = (s, .error 500 msg)) ∨
    ∃ title description category,
      req.title = some title ∧ req.description = some description ∧
      req.category = some category ∧
      create s now req =
        (⟨s.rows ++ [insertedRow (nextRowid s) now title description category req
            (req.file.map (fun f => f.filename))], nextRowid s⟩,
          .ok ⟨nextRowid s, "Issue reported successfully", "reported"⟩) := by
  unfold create
  cases hu : uploadSingle req.file with
  | some msg => exact Or.inl ⟨msg, rfl⟩
  | none =>
    unfold insertIssue
    cases ht : req.title with
    | none => exact Or.inl ⟨_, rfl⟩
    | some title =>
      cases hd : req.description with
      | none => exact Or.inl ⟨_, rfl⟩
      | some description =>
        cases hc : req.category with
        | none => exact Or.inl ⟨_, rfl⟩
        | some category => exact Or.inr ⟨title, description, category, rfl, rfl, rfl, rfl⟩

/-- One request adds to the table exactly the row it creates, with the id the
response reports and the clock reading as `created_at`, and keeps the id and
`created_at` of every row that was there. -/
theorem step_log (s : Store) (op : Op) :
    (step s op).rows.map (fun r => (r.id, r.created_at))
      = s.rows.map (fun r => (r.id, r.created_at)) ++ (created s op).toList := by
  cases op with
  | create now req =>
    rcases create_cases s now req with ⟨msg, h⟩ | ⟨t, d, c, -, -, -, h⟩
    · simp [step, created, h]
    · simp [step, created, h, insertedRow]
  | getById id => simp [step, created]
  | list q => simp [step, created]
  | stats => simp [step, created]
  | updateStatus now id status admin_notes =>
    simp only [step, created, updateStatus_store, Option.toList, List.append_nil, List.map_map]
    apply List.map_congr_left
    intro r _
    simp only [Function.comp]
    split <;> rfl

theorem run_log (ops : List Op) :
    ∀ s : Store, (run s ops).rows.map (fun r => (r.id, r.created_at))
      = s.rows.map (fun r => (r.id, r.created_at)) ++ creationLog s ops := by
  induction ops with
  | nil => intro s; simp [run, creationLog]
  | cons op rest ih =>
    intro s
    have h := ih (step s op)
    simp only [run, List.foldl_cons] at h ⊢
    rw [h, step_log, creationLog, List.append_assoc]

theorem storedIds_eq (s : Store) :
    storedIds s = (s.rows.map (fun r => (r.id, r.created_at))).map Prod.fst := by
  simp [storedIds, List.map_map, Function.comp]

theorem run_storedIds (s : Store) (ops : List Op) :
    storedIds (run s ops) = storedIds s ++ assignedIds s ops := by
  rw [storedIds_eq, run_log, List.map_append, ← storedIds_eq, assignedIds]

theorem step_rowidOrdered (s : Store) (op : Op) (h : s.rowidOrdered) :
    (step s op).rowidOrdered := by
  cases op with
  | create now req =>
    rcases create_cases s now req with ⟨msg, hc⟩ | ⟨t, d, c, -, -, -, hc⟩
    · simpa [step, hc] using h
    · simp only [step, hc, Store.rowidOrdered]
      rw [List.pairwise_append]
      refine ⟨h, List.pairwise_singleton _ _, ?_⟩
      intro a ha b hb
      rw [List.mem_singleton] at hb
      subst hb
      exact id_lt_nextRowid ha
  | getById id => exact h
  | list q => exact h
  | stats => exact h
  | updateStatus now id status admin_notes =>
    simp only [step, updateStatus_store, Store.rowidOrdered]
    rw [List.pairwise_map]
    refine List.Pairwise.imp ?_ h
    intro a b hab
    have ha : (if a.id == id then setStatus now status admin_notes a else a).id = a.id := by
      split <;> rfl
    have hb : (if b.id == id then setStatus now status admin_notes b else b).id = b.id := by
      split <;> rfl
    rw [ha, hb]
    exact hab

theorem run_rowidOrdered (ops : List Op) :
    ∀ s : Store, s.rowidOrdered → (run s ops).rowidOrdered := by
  induction ops with
  | nil => intro s h; exact h
  | cons op rest ih =>
    intro s h
    exact ih (step s op) (step_rowidOrdered s op h)

theorem run_append (s : Store) (ops more : List Op) :
    run s (ops ++ more) = run (run s ops) more := by
  simp [run, List.foldl_append]

/-- C13: along every sequence of requests from the empty store the stored ids
are pairwise distinct, the ids the creates returned are pairwise distinct (a
create never returns an id that was assigned before it), and every id that is
stored at some point is still stored after any further requests. -/
theorem ids_never_reused (ops more : List Op) :
    (storedIds (run Store.empty ops)).Nodup ∧
    (assignedIds Store.empty ops).Nodup ∧
    storedIds (run Store.empty ops) = assignedIds Store.empty ops ∧
    ∀ i ∈ storedIds (run Store.empty ops), i ∈ storedIds (run Store.empty (ops ++ more)) := by
  have hord : (run Store.empty ops).rowidOrdered :=
    run_rowidOrdered ops Store.empty List.Pairwise.nil
  have hnodup : (storedIds (run Store.empty ops)).Nodup := by
    unfold Store.rowidOrdered at hord
    have h2 : (storedIds (run Store.empty ops)).Pairwise (fun a b => a < b) := by
      rw [storedIds, List.pairwise_map]
      exact hord
    exact h2.imp (fun hab => Nat.ne_of_lt hab)
  have hids : storedIds (run Store.empty ops) = assignedIds Store.empty ops := by
    rw [run_storedIds]
    rfl
  refine ⟨hnodup, hids ▸ hnodup, hids, ?_⟩
  intro i hi
  rw [run_append, run_storedIds]
  exact List.mem_append_left _ hi

/-- Served at a clock reading `now` that is not before `t`, a request keeps
every row between its `created_at` and the clock. -/
theorem step_times (s : Store) (op : Op) (t : Nat)
    (h : ∀ r ∈ s.rows, r.created_at ≤ r.updated_at ∧ r.updated_at ≤ t) :
    (op.time = none → ∀ r ∈ (step s op).rows, r.created_at ≤ r.updated_at ∧ r.updated_at ≤ t) ∧
    (∀ now, op.time = some now → t ≤ now →
      ∀ r ∈ (step s op).rows, r.created_at ≤ r.updated_at ∧ r.updated_at ≤ now) := by
  cases op with
  | getById id => exact ⟨fun _ => h, fun now hn => by simp [Op.time] at hn⟩
  | list q => exact ⟨fun _ => h, fun now hn => by simp [Op.time] at hn⟩
  | stats => exact ⟨fun _ => h, fun now hn => by simp [Op.time] at hn⟩
  | create now0 req =>
    refine ⟨fun hn => by simp [Op.time] at hn, ?_⟩
    intro now hn hle r hr
    simp only [Op.time, Option.some.injEq] at hn
    subst hn
    rcases create_cases s now0 req with ⟨msg, hc⟩ | ⟨ti, d, c, -, -, -, hc⟩
    · simp only [step, hc] at hr
      have := h r hr
      omega
    · simp only [step, hc, List.mem_append, List.mem_singleton] at hr
      rcases hr with hr | hr
      · have := h r hr
        omega
      · subst hr
        simp [insertedRow]
  | updateStatus now0 id status admin_notes =>
    refine ⟨fun hn => by simp [Op.time] at hn, ?_⟩
    intro now hn hle r hr
    simp only [Op.time, Option.some.injEq] at hn
    subst hn
    simp only [step, updateStatus_store, List.mem_map] at hr
    obtain ⟨r0, hr0, rfl⟩ := hr
    have h0 := h r0 hr0
    split
    · simp only [setStatus]
      omega
    · omega

theorem run_times (ops : List Op) :
    ∀ (s : Store) (t : Nat),
      (∀ r ∈ s.rows, r.created_at ≤ r.updated_at ∧ r.updated_at ≤ t) →
      clockOrdered t ops →
      ∀ r ∈ (run s ops).rows, r.created_at ≤ r.updated_at := by
  induction ops with
  | nil => intro s t h _ r hr; exact (h r hr).1
  | cons op rest ih =>
    intro s t h hclock
    have hstep := step_times s op t h
    unfold clockOrdered at hclock
    cases hop : op.time with
    | none =>
      simp only [List.filterMap_cons, hop] at hclock
      exact ih (step s op) t (hstep.1 hop) hclock
    | some now =>
      simp only [List.filterMap_cons, hop, nonDecreasingFrom] at hclock
      exact ih (step s op) now (hstep.2 now hop hclock.1) hclock.2

/-- C14: after any sequence of requests from the empty store served under a
clock that never runs backwards, every stored issue has `updated_at` at least
`created_at`, and the `created_at` of each stored issue is the clock reading
of the create that stored it. -/
theorem timestamps_ordered (ops : List Op) (hclock : clockOrdered 0 ops) :
    (∀ r ∈ (run Store.empty ops).rows, r.created_at ≤ r.updated_at) ∧
    (run Store.empty ops).rows.map (fun r => (r.id, r.created_at))
      = creationLog Store.empty ops := by
  refine ⟨run_times ops Store.empty 0 (fun r hr => by cases hr) hclock, ?_⟩
  rw [run_log]
  rfl

theorem timestamps_ordered_witness :
    clockOrdered 0 sampleOps ∧
      (∀ r ∈ (run Store.empty sampleOps).rows, r.created_at ≤ r.updated_at) ∧
      (run Store.empty sampleOps).rows.map (fun r => (r.id, r.created_at))
        = creationLog Store.empty sampleOps :=
  ⟨by decide, timestamps_ordered sampleOps (by decide)⟩

theorem step_knownStatus (s : Store) (op : Op) (hop : op.statusKnown)
    (h : ∀ r ∈ s.rows, knownStatus r.status) :
    ∀ r ∈ (step s op).rows, knownStatus r.status := by
  cases op with
  | getById id => exact h
  | list q => exact h
  | stats => exact h
  | create now req =>
    intro r hr
    rcases create_cases s now req with ⟨msg, hc⟩ | ⟨ti, d, c, -, -, -, hc⟩
    · simp only [step, hc] at hr
      exact h r hr
    · simp only [step, hc, List.mem_append, List.mem_singleton] at hr
      rcases hr with hr | hr
      · exact h r hr
      · subst hr
        exact Or.inl rfl
  | updateStatus now id status admin_notes =>
    intro r hr
    simp only [step, updateStatus_store, List.mem_map] at hr
    obtain ⟨r0, hr0, rfl⟩ := hr
    split
    · exact hop
    · exact h r0 hr0

theorem run_knownStatus (ops : List Op) :
    ∀ s : Store, updatesKnown ops → (∀ r ∈ s.rows, knownStatus r.status) →
      ∀ r ∈ (run s ops).rows, knownStatus r.status := by
  induction ops with
  | nil => intro s _ h; exact h
  | cons op rest ih =>
    intro s hk h
    exact ih (step s op) (fun o ho => hk o (List.mem_cons_of_mem _ ho))
      (step_knownStatus s op (hk op (List.mem_cons_self _ _)) h)

/-- C15, as amended: after any sequence of requests from the empty store in
which every status update carried `reported`, `in_progress` or `resolved`,
the status of every stored issue is one of these three. -/
theorem status_known_of_updates_known (ops : List Op) (hk : updatesKnown ops) :
    ∀ r ∈ (run Store.empty ops).rows, knownStatus r.status :=
  run_knownStatus ops Store.empty hk (fun r hr => by cases hr)

theorem status_known_of_updates_known_witness :
    updatesKnown sampleOps ∧ ∀ r ∈ (run Store.empty sampleOps).rows, knownStatus r.status :=
  ⟨by decide, status_known_of_updates_known sampleOps (by decide)⟩

/-- C15, as stated, fails: a status update stores whatever text it is given,
so after one create and an update to `escalated` the stored status is none of
the three values; an update without a status stores `NULL`. -/
theorem status_outside_enumeration :
    (run Store.empty
        [.create 100 (sampleRequest "first"),
          .updateStatus 101 1 (some "escalated") none]).rows.map (fun r => r.status)
        = [some "escalated"] ∧
      ¬ (∀ r ∈ (run Store.empty
          [.create 100 (sampleRequest "first"),
            .updateStatus 101 1 (some "escalated") none]).rows, knownStatus r.status) ∧
      ¬ (∀ r ∈ (run Store.empty
          [.create 100 (sampleRequest "first"),
            .updateStatus 101 1 none none]).rows, knownStatus r.status) := by
  decide

/-! ## Uploads and required fields -/

theorem uploadSingle_none_iff (f : UploadedFile) :
    uploadSingle (some f) = none ↔
      "image/".toList <+: f.mimetype.toList ∧ f.size ≤ 5 * 1024 * 1024 := by
  have hlimit : fileSizeLimit = 5 * 1024 * 1024 := rfl
  simp only [uploadSingle, fileFilter, List.isPrefixOf_iff_prefix, hlimit]
  by_cases hp : "image/".toList <+: f.mimetype.toList
  · by_cases hs : f.size > 5 * 1024 * 1024
    · simp only [hp, hs, if_true, true_and]
      constructor
      · intro h; cases h
      · intro h; omega
    · simp only [hp, hs, if_true, if_false, true_and, true_iff]
      omega
  · simp only [hp, if_false, false_and, iff_false]
    intro h; cases h

/-- C16: a create request that carries an upload gets past the upload
middleware exactly when the MIME type of the file starts with `image/` and its
size is at most 5MB; otherwise the request is answered with an error and the
store is unchanged, as for a 6MB image. -/
theorem upload_accepted_iff (s : Store) (now : Nat) (req : CreateRequest) (f : UploadedFile)
    (hf : req.file = some f) :
    (uploadSingle req.file = none ↔
      "image/".toList <+: f.mimetype.toList ∧ f.size ≤ 5 * 1024 * 1024) ∧
    (¬ ("image/".toList <+: f.mimetype.toList ∧ f.size ≤ 5 * 1024 * 1024) →
      ∃ msg, create s now req = (s, .error 500 msg)) ∧
    create s now sixMegabyteRequest = (s, .error 500 "File too large") := by
  rw [hf]
  refine ⟨uploadSingle_none_iff f, ?_, rfl⟩
  intro hrej
  rw [← uploadSingle_none_iff] at hrej
  cases hu : uploadSingle (some f) with
  | none => exact absurd hu hrej
  | some msg =>
    refine ⟨msg, ?_⟩
    unfold create
    rw [hf]
    simp only [hu]

theorem upload_accepted_iff_witness :
    sixMegabyteRequest.file = some ⟨"1700000000000-7.png", "image/png", 6 * 1024 * 1024⟩ ∧
      ((uploadSingle sixMegabyteRequest.file = none ↔
          "image/".toList <+:
              (⟨"1700000000000-7.png", "image/png", 6 * 1024 * 1024⟩ : UploadedFile).mimetype.toList ∧
            (⟨"1700000000000-7.png", "image/png", 6 * 1024 * 1024⟩ : UploadedFile).size
              ≤ 5 * 1024 * 1024) ∧
        (¬ ("image/".toList <+:
              (⟨"1700000000000-7.png", "image/png", 6 * 1024 * 1024⟩ : UploadedFile).mimetype.toList ∧
            (⟨"1700000000000-7.png", "image/png", 6 * 1024 * 1024⟩ : UploadedFile).size
              ≤ 5 * 1024 * 1024) →
          ∃ msg, create sampleStore 200 sixMegabyteRequest = (sampleStore, .error 500 msg)) ∧
        create sampleStore 200 sixMegabyteRequest = (sampleStore, .error 500 "File too large")) :=
  ⟨rfl, upload_accepted_iff sampleStore 200 sixMegabyteRequest _ rfl⟩

/-- C17, as amended: a create request in which title, description or category
is absent is answered with an error and leaves the store unchanged; a request
in which all three are present, empty or not, and whose upload is let through
stores them as they are. -/
theorem create_required_fields (s : Store) (now : Nat) (req : CreateRequest) :
    ((req.title = none ∨ req.description = none ∨ req.category = none) →
      ∃ msg, create s now req = (s, .error 500 msg)) ∧
    (∀ title description category,
      req.title = some title → req.description = some description →
      req.category = some category → uploadSingle req.file = none →
      ∃ row, (create s now req).1.rows = s.rows ++ [row] ∧
        row.title = title ∧ row.description = description ∧ row.category = category) := by
  constructor
  · intro hmissing
    rcases create_cases s now req with h | ⟨t, d, c, ht, hd, hc, -⟩
    · exact h
    · rcases hmissing with h | h | h
      · rw [ht] at h; cases h
      · rw [hd] at h; cases h
      · rw [hc] at h; cases h
  · intro title description category ht hd hc hu
    rcases create_cases s now req with ⟨msg, h⟩ | ⟨t, d, c, ht', hd', hc', h⟩
    · exfalso
      unfold create at h
      simp only [hu, insertIssue, ht, hd, hc, Prod.mk.injEq] at h
      cases h.2
    · rw [ht] at ht'; rw [hd] at hd'; rw [hc] at hc'
      cases ht'; cases hd'; cases hc'
      exact ⟨_, by rw [h], rfl, rfl, rfl⟩

theorem create_required_fields_witness :
    ((sampleRequest "lamp").description = some "The streetlight has been out for two weeks." ∧
      ∃ msg, create sampleStore 200 { sampleRequest "lamp" with title := none }
        = (sampleStore, .error 500 msg)) ∧
    (uploadSingle emptyTitleRequest.file = none ∧
      ∃ row, (create sampleStore 200 emptyTitleRequest).1.rows = sampleStore.rows ++ [row] ∧
        row.title = "" ∧ row.description = "" ∧ row.category = "lighting") :=
  ⟨⟨rfl, (create_required_fields sampleStore 200 { sampleRequest "lamp" with title := none }).1
      (Or.inl rfl)⟩,
    ⟨rfl, (create_required_fields sampleStore 200 emptyTitleRequest).2 "" "" "lighting"
      rfl rfl rfl rfl⟩⟩

/-- C17, as stated, fails: the server checks only that the three fields are
not `NULL`, so a create whose title and description are empty strings
succeeds and the stored issue has an empty title and an empty description. -/
theorem empty_title_stored :
    create Store.empty 100 emptyTitleRequest
        = (⟨[insertedRow 1 100 "" "" "lighting" emptyTitleRequest none], 1⟩,
            .ok ⟨1, "Issue reported successfully", "reported"⟩) ∧
      ¬ (∀ r ∈ (create Store.empty 100 emptyTitleRequest).1.rows,
          r.title ≠ "" ∧ r.description ≠ "") := by
  decide

/-! ## Citizen form validation -/

/-- C19: at the boundary the code and its message part ways. A form that
passes the text checks and carries a PNG image of exactly 5MB is accepted,
although 5MB is not less than 5MB; one byte more is rejected with
`Image file size must be less than 5MB.`. -/
theorem validateForm_accepts_five_megabytes :
    validateForm (formWithImage (5 * 1024 * 1024)) = true ∧
      (formWithImage (5 * 1024 * 1024)).image = some ⟨"image/png", maxSize⟩ ∧
      ¬ (maxSize < 5 * 1024 * 1024) ∧
      formError (formWithImage (5 * 1024 * 1024 + 1))
        = some "Image file size must be less than 5MB." := by
  decide

/-! ## CSV export -/

theorem joinWith_cons_cons (sep a b : String) (rest : List String) :
    joinWith sep (a :: b :: rest) = a ++ sep ++ joinWith sep (b :: rest) := rfl

theorem joinWith_data (sep h : String) (rows : List String) :
    (joinWith sep (h :: rows)).data = h.data ++ rows.flatMap (fun r => sep.data ++ r.data) := by
  induction rows generalizing h with
  | nil => simp [joinWith]
  | cons r rest ih =>
    rw [joinWith_cons_cons, String.data_append, String.data_append, ih r]
    simp [List.flatMap_cons, List.append_assoc]

theorem quotedField_data (v : Option String) :
    (quotedField v).data
      = dquote :: ((v.getD "").data.flatMap (fun c => if c = dquote then [dquote, dquote] else [c])
          ++ [dquote]) := by
  simp [quotedField, escapeQuotes, String.data_append, String.singleton]

theorem read_bare_run (f : List Char)
    (hf : ∀ c ∈ f, c ≠ ',' ∧ c ≠ dquote ∧ c ≠ lf ∧ c ≠ cr) :
    ∀ (acc : List Char) (record : List String) (records : List (List String))
      (rest : List Char),
      readCsvFrom .bare acc record records (f ++ rest)
        = readCsvFrom .bare (acc ++ f) record records rest := by
  induction f with
  | nil => intro acc record records rest; simp
  | cons c f ih =>
    intro acc record records rest
    have hc := hf c (List.mem_cons_self _ _)
    have hrest : ∀ c ∈ f, c ≠ ',' ∧ c ≠ dquote ∧ c ≠ lf ∧ c ≠ cr :=
      fun x hx => hf x (List.mem_cons_of_mem _ hx)
    rw [List.cons_append, readCsvFrom]
    simp only [hc.1, hc.2.1, hc.2.2.1, hc.2.2.2, if_false]
    rw [ih hrest]
    simp

theorem read_bare_field (f : String) (hf : bareText f) (record : List String)
    (records : List (List String)) (rest : List Char) :
    readCsvFrom .fieldStart [] record records (f.data ++ ',' :: rest)
      = readCsvFrom .fieldStart [] (record ++ [f]) records rest := by
  have hcomma : (',' : Char) ≠ dquote := by decide
  cases hdata : f.data with
  | nil =>
    have hf0 : f = "" := by
      cases f
      simp only at hdata
      subst hdata
      rfl
    subst hf0
    rw [List.nil_append, readCsvFrom]
    simp only [hcomma, if_false, if_true]
  | cons c t =>
    have hall : ∀ x ∈ c :: t, x ≠ ',' ∧ x ≠ dquote ∧ x ≠ lf ∧ x ≠ cr := by
      intro x hx
      apply hf x
      show x ∈ f.data
      rw [hdata]
      exact hx
    have hc := hall c (List.mem_cons_self _ _)
    have ht : ∀ x ∈ t, x ≠ ',' ∧ x ≠ dquote ∧ x ≠ lf ∧ x ≠ cr :=
      fun x hx => hall x (List.mem_cons_of_mem _ hx)
    have hmk : String.mk (c :: t) = f := by
      cases f
      simp only at hdata
      subst hdata
      rfl
    rw [List.cons_append, readCsvFrom]
    simp only [hc.1, hc.2.1, hc.2.2.1, hc.2.2.2, if_false]
    rw [read_bare_run t ht, readCsvFrom]
    simp only [hcomma, if_false, if_true, List.singleton_append, hmk]

theorem read_quoted_run (t : List Char) :
    ∀ (acc : List Char) (record : List String) (records : List (List String))
      (rest : List Char),
      readCsvFrom .quoted acc record records
          (t.flatMap (fun c => if c = dquote then [dquote, dquote] else [c]) ++ dquote :: rest)
        = readCsvFrom .quoteSeen (acc ++ t) record records rest := by
  induction t with
  | nil =>
    intro acc record records rest
    rw [List.flatMap_nil, List.nil_append, readCsvFrom]
    simp
  | cons c t ih =>
    intro acc record records rest
    rw [List.flatMap_cons]
    by_cases hc : c = dquote
    · subst hc
      simp only [if_true, List.cons_append, List.nil_append]
      rw [readCsvFrom]
      simp only [if_true]
      rw [readCsvFrom]
      simp only [if_true]
      rw [ih]
      simp
    · simp only [hc, if_false, List.cons_append, List.nil_append]
      rw [readCsvFrom]
      simp only [hc, if_false]
      rw [ih]
      simp

theorem read_quoted_field (v : Option String) (record : List String)
    (records : List (List String)) (rest : List Char) :
    readCsvFrom .fieldStart [] record records ((quotedField v).data ++ rest)
      = readCsvFrom .quoteSeen (v.getD "").data record records rest := by
  rw [quotedField_data, List.cons_append, readCsvFrom]
  simp only [if_true, List.append_assoc, List.singleton_append]
  rw [read_quoted_run]
  simp

theorem read_quoted_comma (v : Option String) (record : List String)
    (records : List (List String)) (rest : List Char) :
    readCsvFrom .fieldStart [] record records ((quotedField v).data ++ ',' :: rest)
      = readCsvFrom .fieldStart [] (record ++ [v.getD ""]) records rest := by
  have hcomma : (',' : Char) ≠ dquote := by decide
  rw [read_quoted_field, readCsvFrom]
  simp only [hcomma, if_false, if_true]

theorem plainField_bare_comma (v : Option String) (hv : bareText (v.getD "")) (record : List String)
    (records : List (List String)) (rest : List Char) :
    readCsvFrom .fieldStart [] record records ((plainField v).data ++ ',' :: rest)
      = readCsvFrom .fieldStart [] (record ++ [v.getD ""]) records rest :=
  read_bare_field (v.getD "") hv record records rest

/-- Reading one exported row up to the closing quote of its last field. -/
theorem read_row (issue : IssueJson) (h : bareColumns issue) (records : List (List String))
    (rest : List Char) :
    readCsvFrom .fieldStart [] [] records ((joinWith "," (csvFields issue)).data ++ rest)
      = readCsvFrom .quoteSeen (issue.admin_notes.getD "").data
          [ toString issue.id, issue.title.getD "", issue.description.getD "",
            issue.category.getD "", issue.status.getD "", issue.priority.getD "",
            issue.address.getD "", issue.reporter_name.getD "", issue.reporter_email.getD "",
            issue.reporter_phone.getD "", issue.created_at.getD "", issue.updated_at.getD "" ]
          records rest := by
  obtain ⟨hid, hcat, hstatus, hprio, hemail, hphone, hcreated, hupdated⟩ := h
  have hsep : (",".data : List Char) = [','] := rfl
  simp only [csvFields, joinWith_data, List.flatMap_cons, List.flatMap_nil, List.append_nil,
    List.append_assoc, hsep, List.singleton_append, List.cons_append, List.nil_append,
    read_bare_field _ hid, read_quoted_comma, plainField_bare_comma _ hcat,
    plainField_bare_comma _ hstatus, plainField_bare_comma _ hprio,
    plainField_bare_comma _ hemail, plainField_bare_comma _ hphone,
    plainField_bare_comma _ hcreated, plainField_bare_comma _ hupdated]
  rw [read_quoted_field]

theorem read_bare_fields (fields : List String) (h : ∀ f ∈ fields, bareText f) :
    ∀ (record : List String) (records : List (List String)) (rest : List Char),
      readCsvFrom .fieldStart [] record records
          (fields.flatMap (fun f => f.data ++ [',']) ++ rest)
        = readCsvFrom .fieldStart [] (record ++ fields) records rest := by
  induction fields with
  | nil => intro record records rest; simp
  | cons f fs ih =>
    intro record records rest
    have hf := h f (List.mem_cons_self _ _)
    have hfs : ∀ g ∈ fs, bareText g := fun g hg => h g (List.mem_cons_of_mem _ hg)
    rw [List.flatMap_cons, List.append_assoc, List.append_assoc, List.singleton_append,
      read_bare_field f hf, ih hfs]
    simp

theorem read_bare_start (c : Char) (t : List Char)
    (h : ∀ x ∈ c :: t, x ≠ ',' ∧ x ≠ dquote ∧ x ≠ lf ∧ x ≠ cr) (record : List String)
    (records : List (List String)) (rest : List Char) :
    readCsvFrom .fieldStart [] record records (c :: t ++ rest)
      = readCsvFrom .bare (c :: t) record records rest := by
  have hc := h c (List.mem_cons_self _ _)
  have ht : ∀ x ∈ t, x ≠ ',' ∧ x ≠ dquote ∧ x ≠ lf ∧ x ≠ cr :=
    fun x hx => h x (List.mem_cons_of_mem _ hx)
  rw [List.cons_append, readCsvFrom]
  simp only [hc.1, hc.2.1, hc.2.2.1, hc.2.2.2, if_false]
  rw [read_bare_run t ht]
  rfl

/-- Reading the header line up to the end of its last name. -/
theorem read_header (rest : List Char) :
    readCsvFrom .fieldStart [] [] [] ((joinWith "," csvHeaders).data ++ rest)
      = readCsvFrom .bare "Admin Notes".data
          [ "ID", "Title", "Description", "Category", "Status", "Priority", "Address",
            "Reporter Name", "Reporter Email", "Reporter Phone", "Created", "Updated" ]
          [] rest := by
  have hdata : (joinWith "," csvHeaders).data
      = [ "ID", "Title", "Description", "Category", "Status", "Priority", "Address",
          "Reporter Name", "Reporter Email", "Reporter Phone", "Created",
          "Updated" ].flatMap (fun f => f.data ++ [','])
        ++ 'A' :: "dmin Notes".data := by
    decide
  have hlast : ("Admin Notes".data : List Char) = 'A' :: "dmin Notes".data := rfl
  rw [hdata, List.append_assoc, read_bare_fields _ (by decide), hlast,
    read_bare_start 'A' "dmin Notes".data (by decide)]
  rfl

/-- Reading the rows that follow a finished last field, each led by a line
feed. -/
theorem read_rows (issues : List IssueJson) (h : ∀ issue ∈ issues, bareColumns issue) :
    ∀ (st : CsvState) (field : List Char) (record : List String)
      (records : List (List String)), (st = .bare ∨ st = .quoteSeen) →
      readCsvFrom st field record records
          (issues.flatMap (fun issue => [lf] ++ (joinWith "," (csvFields issue)).data))
        = some (records ++ [record ++ [String.mk field]] ++ issues.map csvValues) := by
  induction issues with
  | nil =>
    intro st field record records hst
    rcases hst with hst | hst <;> subst hst <;> simp [readCsvFrom]
  | cons issue rest ih =>
    intro st field record records hst
    have hissue := h issue (List.mem_cons_self _ _)
    have hrest : ∀ i ∈ rest, bareColumns i := fun i hi => h i (List.mem_cons_of_mem _ hi)
    have h1 : lf ≠ dquote := by decide
    have h2 : lf ≠ ',' := by decide
    have hstep : readCsvFrom st field record records
        (lf :: ((joinWith "," (csvFields issue)).data ++
          rest.flatMap (fun issue => [lf] ++ (joinWith "," (csvFields issue)).data)))
        = readCsvFrom .fieldStart [] [] (records ++ [record ++ [String.mk field]])
            ((joinWith "," (csvFields issue)).data ++
              rest.flatMap (fun issue => [lf] ++ (joinWith "," (csvFields issue)).data)) := by
      rcases hst with hst | hst <;> subst hst <;> rw [readCsvFrom] <;>
        simp only [h1, h2, if_false, if_true]
    rw [List.flatMap_cons, List.singleton_append, List.cons_append, hstep,
      read_row issue hissue, ih hrest .quoteSeen _ _ _ (Or.inr rfl)]
    simp [csvValues]

/-- C20: when the columns the export writes without quotes (id, category,
status, priority, reporter email, reporter phone, created, updated) hold no
comma, double quote or line break, reading `generateCSV issues` as RFC 4180 CSV
gives the header of thirteen names followed by one record of thirteen fields
for each issue, in input order, whose fields are the values of the issue (an
absent text as the empty text), whatever title, description, address, reporter
name and admin notes contain. -/
theorem csv_roundtrip (issues : List IssueJson) (h : ∀ issue ∈ issues, bareColumns issue) :
    readCsv (generateCSV issues) = some (csvHeaders :: issues.map csvValues) ∧
    csvHeaders.length = 13 ∧ ∀ issue ∈ issues, (csvValues issue).length = 13 := by
  refine ⟨?_, rfl, fun _ _ => rfl⟩
  have hlf : (String.singleton lf).data = [lf] := rfl
  unfold readCsv generateCSV
  show readCsvFrom .fieldStart [] [] [] (joinWith _ _).data = _
  rw [joinWith_data, List.flatMap_map]
  simp only [hlf]
  rw [read_header, read_rows issues h .bare _ _ _ (Or.inl rfl)]
  rfl

theorem csv_roundtrip_witness :
    (∀ issue ∈ [trickyIssue, trickyIssue], bareColumns issue) ∧
      (readCsv (generateCSV [trickyIssue, trickyIssue])
          = some (csvHeaders :: [trickyIssue, trickyIssue].map csvValues) ∧
        csvHeaders.length = 13 ∧
        ∀ issue ∈ [trickyIssue, trickyIssue], (csvValues issue).length = 13) :=
  ⟨by decide, csv_roundtrip [trickyIssue, trickyIssue] (by decide)⟩

theorem doubledQuotes_eq (text : List Char) :
    doubledQuotes text
      = text.flatMap (fun c => if c = dquote then [dquote, dquote] else [c]) := by
  induction text with
  | nil => rfl
  | cons c rest ih =>
    rw [doubledQuotes, List.flatMap_cons, ih]
    split <;> rfl

theorem quotedField_enclosed (v : Option String) :
    (quotedField v).data = enclosedInQuotes v := by
  rw [quotedField_data, enclosedInQuotes, doubledQuotes_eq]
  rfl

theorem csvRow_data (issue : IssueJson) :
    (joinWith "," (csvFields issue)).data = rowAsDescribed issue := by
  have hsep : (",".data : List Char) = [','] := rfl
  simp only [csvFields, joinWith_data, List.flatMap_cons, List.flatMap_nil, List.append_nil,
    hsep, quotedField_enclosed, rowAsDescribed, plainField, writtenBare, String.toList,
    List.append_assoc]

/-- The text of an export: the header line, then for each issue in order a
line feed and its row as described. -/
theorem generateCSV_data (issues : List IssueJson) :
    (generateCSV issues).toList
      = (joinWith "," csvHeaders).toList
        ++ issues.flatMap (fun issue => lf :: rowAsDescribed issue) := by
  have hlf : (String.singleton lf).data = [lf] := rfl
  unfold generateCSV
  show (joinWith _ _).data = _
  rw [joinWith_data, List.flatMap_map]
  simp only [hlf, csvRow_data, List.singleton_append]
  rfl

/-- C18, as amended: the export of any list of issues is the header line
followed, for each issue in order, by a line feed and a data row in which
title, description, address, reporter name and admin notes are enclosed in
double quotes with every inner double quote doubled, and category, status,
priority, reporter email and reporter phone are written as they are, without
quotes. -/
theorem csv_rows_quoting (issues : List IssueJson) :
    (generateCSV issues).toList
      = (joinWith "," csvHeaders).toList
        ++ issues.flatMap (fun issue =>
            lf :: ((toString issue.id).toList ++ [','] ++
              enclosedInQuotes issue.title ++ [','] ++
              enclosedInQuotes issue.description ++ [','] ++
              writtenBare issue.category ++ [','] ++
              writtenBare issue.status ++ [','] ++
              writtenBare issue.priority ++ [','] ++
              enclosedInQuotes issue.address ++ [','] ++
              enclosedInQuotes issue.reporter_name ++ [','] ++
              writtenBare issue.reporter_email ++ [','] ++
              writtenBare issue.reporter_phone ++ [','] ++
              writtenBare issue.created_at ++ [','] ++
              writtenBare issue.updated_at ++ [','] ++
              enclosedInQuotes issue.admin_notes)) :=
  generateCSV_data issues

/-- C18, as stated, fails: in the export of the sample issue the category
`roads` stands bare between two commas, so the data row is not the row with
every text field enclosed in double quotes. -/
theorem csv_category_not_quoted :
    (generateCSV [trickyIssue]).toList
        ≠ (joinWith "," csvHeaders).toList ++ lf :: rowAllQuoted trickyIssue ∧
      ((generateCSV [trickyIssue]).toList.drop 165).take 7
        = [',', 'r', 'o', 'a', 'd', 's', ','] := by
  constructor
  · rw [generateCSV_data]
    intro h
    simp only [List.flatMap_cons, List.flatMap_nil, List.append_nil] at h
    have h2 := List.append_cancel_left h
    revert h2
    decide
  · decide

/-! ## Pagination bar -/

theorem pageButtons_append (a b : List PageElement) :
    pageButtons (a ++ b) = pageButtons a ++ pageButtons b := by
  simp [pageButtons, List.filterMap_append]

theorem pageMarks_append (a b : List PageElement) :
    pageMarks (a ++ b) = pageMarks a ++ pageMarks b := by
  simp [pageMarks, List.filterMap_append]

theorem pageButtons_numbered (currentPage : Nat) (l : List Nat) :
    pageButtons (l.map (fun i => PageElement.page i (i == currentPage))) = l := by
  induction l with
  | nil => rfl
  | cons a t ih =>
    simp only [pageButtons, List.map_cons, List.filterMap_cons] at ih ⊢
    rw [ih]

theorem pageMarks_numbered (currentPage : Nat) (l : List Nat) :
    pageMarks (l.map (fun i => PageElement.page i (i == currentPage))) = l.map some := by
  induction l with
  | nil => rfl
  | cons a t ih =>
    simp only [pageMarks, List.map_cons, List.filterMap_cons] at ih ⊢
    rw [ih]

theorem pageButtons_render (totalItems itemsPerPage currentPage : Nat)
    (h : ¬ pageCount totalItems itemsPerPage ≤ 1) :
    pageButtons (renderPagination totalItems itemsPerPage currentPage)
      = (if max 1 (currentPage - 2) > 1 then [1] else [])
        ++ List.range' (max 1 (currentPage - 2))
            (min (pageCount totalItems itemsPerPage) (currentPage + 2) + 1
              - max 1 (currentPage - 2))
        ++ (if min (pageCount totalItems itemsPerPage) (currentPage + 2)
              < pageCount totalItems itemsPerPage
            then [pageCount totalItems itemsPerPage] else []) := by
  simp only [renderPagination, h, if_false, pageButtons_append, pageButtons_numbered]
  split_ifs <;> simp [pageButtons]

theorem pageMarks_render (totalItems itemsPerPage currentPage : Nat)
    (h : ¬ pageCount totalItems itemsPerPage ≤ 1) :
    pageMarks (renderPagination totalItems itemsPerPage currentPage)
      = (if max 1 (currentPage - 2) > 1 then
            [some 1] ++ (if max 1 (currentPage - 2) > 2 then [none] else [])
          else [])
        ++ (List.range' (max 1 (currentPage - 2))
            (min (pageCount totalItems itemsPerPage) (currentPage + 2) + 1
              - max 1 (currentPage - 2))).map some
        ++ (if min (pageCount totalItems itemsPerPage) (currentPage + 2)
              < pageCount totalItems itemsPerPage
            then
              (if min (pageCount totalItems itemsPerPage) (currentPage + 2)
                  < pageCount totalItems itemsPerPage - 1 then [none] else [])
                ++ [some (pageCount totalItems itemsPerPage)]
            else []) := by
  simp only [renderPagination, h, if_false, pageMarks_append, pageMarks_numbered]
  split_ifs <;> simp [pageMarks]

/-- Along a run of consecutive page numbers there is no ellipsis. -/
theorem gapsFrom_range (k : Nat) :
    ∀ (s : Nat) (rest : List Nat),
      gapsFrom s (List.range' (s + 1) k ++ rest)
        = (List.range' (s + 1) k).map some ++ gapsFrom (s + k) rest := by
  induction k with
  | zero => intro s rest; simp
  | succ k ih =>
    intro s rest
    rw [List.range'_succ, List.cons_append, gapsFrom]
    have hno : ¬ (s + 1 - s > 1) := by omega
    simp only [hno, if_false, List.nil_append, List.map_cons, List.cons_append]
    rw [ih (s + 1) rest]
    have hk : s + 1 + k = s + (k + 1) := by omega
    rw [hk]

theorem gapsFrom_last (en tp : Nat) :
    gapsFrom en (if en < tp then [tp] else [])
      = (if en < tp then (if en < tp - 1 then [none] else []) ++ [some tp] else []) := by
  by_cases h : en < tp
  · by_cases h2 : en < tp - 1
    · have h3 : tp - en > 1 := by omega
      simp [h, h2, h3, gapsFrom]
    · have h3 : ¬ (tp - en > 1) := by omega
      simp [h, h2, h3, gapsFrom]
  · simp [h, gapsFrom]

/-- The numbered buttons of a bar that shows the window `st .. en` of the pages
`1 .. tp`: what they are and where the ellipses fall. -/
theorem bar_numbers (st en tp : Nat) (h1 : 1 ≤ st) (h2 : st ≤ en) (h3 : en ≤ tp) :
    ((if st > 1 then [1] else []) ++ List.range' st (en + 1 - st)
        ++ (if en < tp then [tp] else [])).Pairwise (fun a b => a < b) ∧
    (∀ n ∈ (if st > 1 then [1] else []) ++ List.range' st (en + 1 - st)
        ++ (if en < tp then [tp] else []), 1 ≤ n ∧ n ≤ tp) ∧
    (∀ c, (c = 1 ∨ c = tp ∨ (st ≤ c ∧ c ≤ en)) →
      c ∈ (if st > 1 then [1] else []) ++ List.range' st (en + 1 - st)
        ++ (if en < tp then [tp] else [])) ∧
    withGaps ((if st > 1 then [1] else []) ++ List.range' st (en + 1 - st)
        ++ (if en < tp then [tp] else []))
      = (if st > 1 then [some 1] ++ (if st > 2 then [none] else []) else [])
        ++ (List.range' st (en + 1 - st)).map some
        ++ (if en < tp then (if en < tp - 1 then [none] else []) ++ [some tp] else []) := by
  refine ⟨?_, ?_, ?_, ?_⟩
  · rw [List.pairwise_append, List.pairwise_append]
    refine ⟨⟨?_, List.pairwise_lt_range' _ _, ?_⟩, ?_, ?_⟩
    · split_ifs <;> simp
    · intro a ha b hb
      rw [List.mem_range'_1] at hb
      split_ifs at ha with hst
      · simp only [List.mem_singleton] at ha
        omega
      · cases ha
    · split_ifs <;> simp
    · intro a ha b hb
      split_ifs at hb with hen
      · simp only [List.mem_singleton] at hb
        rw [List.mem_append, List.mem_range'_1] at ha
        rcases ha with ha | ha
        · split_ifs at ha with hst
          · simp only [List.mem_singleton] at ha
            omega
          · cases ha
        · omega
      · cases hb
  · intro n hn
    rw [List.mem_append, List.mem_append, List.mem_range'_1] at hn
    rcases hn with (hn | hn) | hn
    · split_ifs at hn with hst
      · simp only [List.mem_singleton] at hn
        omega
      · cases hn
    · omega
    · split_ifs at hn with hen
      · simp only [List.mem_singleton] at hn
        omega
      · cases hn
  · intro c hc
    rw [List.mem_append, List.mem_append, List.mem_range'_1]
    by_cases hin : st ≤ c ∧ c ≤ en
    · exact Or.inl (Or.inr ⟨hin.1, by omega⟩)
    · rcases hc with hc | hc | hc
      · subst hc
        have hst : st > 1 := by omega
        exact Or.inl (Or.inl (by simp [hst]))
      · subst hc
        have hen : en < c := by omega
        exact Or.inr (by simp [hen])
      · exact absurd hc hin
  · have hlen : en + 1 - st = (en - st) + 1 := by omega
    have hend : st + (en - st) = en := by omega
    rw [hlen, List.range'_succ]
    by_cases hst : st > 1
    · have hgap : (st - 1 > 1) = (st > 2) := by
        apply propext
        constructor <;> intro h <;> omega
      simp only [hst, if_true, List.singleton_append, List.cons_append, withGaps, gapsFrom,
        hgap, List.append_assoc, List.map_cons]
      rw [gapsFrom_range, hend, gapsFrom_last]
      split_ifs <;> simp
    · simp only [hst, if_false, List.nil_append, List.cons_append, withGaps, List.map_cons,
        List.append_assoc]
      rw [gapsFrom_range, hend, gapsFrom_last]

/-- C21: when there are at least two pages and the current page is one of
them, the numbered buttons of the bar carry strictly increasing page numbers
(so no number twice) between 1 and the number of pages, among them 1, the
current page and the last page, and the bar shows an ellipsis between two
consecutive buttons exactly when their numbers differ by more than one; with
at most one page the bar is empty. -/
theorem pagination_buttons (totalItems itemsPerPage currentPage : Nat) :
    (pageCount totalItems itemsPerPage ≤ 1 →
      renderPagination totalItems itemsPerPage currentPage = []) ∧
    (1 ≤ itemsPerPage → 2 ≤ pageCount totalItems itemsPerPage → 1 ≤ currentPage →
      currentPage ≤ pageCount totalItems itemsPerPage →
      (pageButtons (renderPagination totalItems itemsPerPage currentPage)).Pairwise
          (fun a b => a < b) ∧
      (∀ n ∈ pageButtons (renderPagination totalItems itemsPerPage currentPage),
          1 ≤ n ∧ n ≤ pageCount totalItems itemsPerPage) ∧
      1 ∈ pageButtons (renderPagination totalItems itemsPerPage currentPage) ∧
      currentPage ∈ pageButtons (renderPagination totalItems itemsPerPage currentPage) ∧
      pageCount totalItems itemsPerPage
          ∈ pageButtons (renderPagination totalItems itemsPerPage currentPage) ∧
      pageMarks (renderPagination totalItems itemsPerPage currentPage)
          = withGaps (pageButtons (renderPagination totalItems itemsPerPage currentPage))) := by
  constructor
  · intro h
    simp only [renderPagination, h, if_true]
  · intro _ htwo hone hle
    have hnot : ¬ pageCount totalItems itemsPerPage ≤ 1 := by omega
    have hbar := bar_numbers (max 1 (currentPage - 2))
      (min (pageCount totalItems itemsPerPage) (currentPage + 2))
      (pageCount totalItems itemsPerPage) (by omega) (by omega) (by omega)
    rw [pageButtons_render _ _ _ hnot, pageMarks_render _ _ _ hnot]
    obtain ⟨hsorted, hrange, hmem, hgaps⟩ := hbar
    exact ⟨hsorted, hrange, hmem 1 (Or.inl rfl),
      hmem currentPage (Or.inr (Or.inr ⟨by omega, by omega⟩)),
      hmem _ (Or.inr (Or.inl rfl)), hgaps.symm⟩

theorem pagination_buttons_witness :
    (pageCount 10 10 ≤ 1 ∧ renderPagination 10 10 1 = []) ∧
    (1 ≤ 10 ∧ 2 ≤ pageCount 95 10 ∧ 1 ≤ 5 ∧ 5 ≤ pageCount 95 10 ∧
      ((pageButtons (renderPagination 95 10 5)).Pairwise (fun a b => a < b) ∧
        (∀ n ∈ pageButtons (renderPagination 95 10 5), 1 ≤ n ∧ n ≤ pageCount 95 10) ∧
        1 ∈ pageButtons (renderPagination 95 10 5) ∧
        5 ∈ pageButtons (renderPagination 95 10 5) ∧
        pageCount 95 10 ∈ pageButtons (renderPagination 95 10 5) ∧
        pageMarks (renderPagination 95 10 5)
          = withGaps (pageButtons (renderPagination 95 10 5)))) :=
  ⟨⟨by decide, (pagination_buttons 10 10 1).1 (by decide)⟩,
    ⟨by decide, by decide, by decide, by decide,
      (pagination_buttons 95 10 5).2 (by decide) (by decide) (by decide) (by decide)⟩⟩

theorem pageInfos_append (a b : List PageElement) :
    pageInfos (a ++ b) = pageInfos a ++ pageInfos b := by
  simp [pageInfos, List.filterMap_append]

theorem pageInfos_numbered (currentPage : Nat) (l : List Nat) :
    pageInfos (l.map (fun i => PageElement.page i (i == currentPage))) = [] := by
  induction l with
  | nil => rfl
  | cons a t ih =>
    simp only [pageInfos, List.map_cons, List.filterMap_cons] at ih ⊢
    rw [ih]

theorem pageInfos_render (totalItems itemsPerPage currentPage : Nat) :
    pageInfos (renderPagination totalItems itemsPerPage currentPage)
      = if pageCount totalItems itemsPerPage ≤ 1 then []
        else [((currentPage - 1) * itemsPerPage + 1,
                min (currentPage * itemsPerPage) totalItems, totalItems)] := by
  by_cases h : pageCount totalItems itemsPerPage ≤ 1
  · simp only [renderPagination, h, if_true, pageInfos, List.filterMap_nil]
  · simp only [renderPagination, h, if_false, pageInfos_append, pageInfos_numbered]
    split_ifs <;> simp [pageInfos]

/-- A page within the page count starts before the end of the rows. -/
theorem page_start_lt (n limit page : Nat) (hlimit : 1 ≤ limit) (hone : 1 ≤ page)
    (hle : page ≤ pageCount n limit) : (page - 1) * limit < n := by
  unfold pageCount at hle
  have hmul : page * limit ≤ n + limit - 1 := (Nat.le_div_iff_mul_le hlimit).mp hle
  have hsplit : page * limit = (page - 1) * limit + limit := by
    have hp : page = (page - 1) + 1 := by omega
    conv_lhs => rw [hp]
    rw [Nat.add_mul, Nat.one_mul]
  omega

/-- C22: for a list response with `total = totalItems` to the request for
page `currentPage` with limit `itemsPerPage`, where `itemsPerPage` is positive
and `currentPage` is one of the pages, a `Showing a-b of N` line that the bar
shows has `1 ≤ a ≤ b ≤ N = totalItems`, and `b - a + 1` is the number of issues
in that response; the bar shows such a line whenever there are at least two
pages. -/
theorem pagination_info (s : Store) (status category priority search : Option String)
    (totalItems itemsPerPage currentPage : Nat) (hper : 1 ≤ itemsPerPage)
    (hone : 1 ≤ currentPage) (hle : currentPage ≤ pageCount totalItems itemsPerPage)
    (htotal : (list s ⟨status, category, some currentPage, some itemsPerPage, priority,
      search⟩).total = totalItems) :
    (∀ a b n, (a, b, n) ∈ pageInfos (renderPagination totalItems itemsPerPage currentPage) →
      1 ≤ a ∧ a ≤ b ∧ b ≤ n ∧ n = totalItems ∧
      b - a + 1 = (list s ⟨status, category, some currentPage, some itemsPerPage, priority,
        search⟩).issues.length) ∧
    (2 ≤ pageCount totalItems itemsPerPage →
      pageInfos (renderPagination totalItems itemsPerPage currentPage)
        = [((currentPage - 1) * itemsPerPage + 1,
            min (currentPage * itemsPerPage) totalItems, totalItems)]) := by
  have hstart := page_start_lt totalItems itemsPerPage currentPage hper hone hle
  have hsplit : currentPage * itemsPerPage = (currentPage - 1) * itemsPerPage + itemsPerPage := by
    have hp : currentPage = (currentPage - 1) + 1 := by omega
    conv_lhs => rw [hp]
    rw [Nat.add_mul, Nat.one_mul]
  have hlen : (list s ⟨status, category, some currentPage, some itemsPerPage, priority,
      search⟩).issues.length
      = min itemsPerPage (totalItems - (currentPage - 1) * itemsPerPage) := by
    have hwin : (list s ⟨status, category, some currentPage, some itemsPerPage, priority,
        search⟩).issues
        = ((orderBy (s.rows.filter (whereClause status category))).drop
            ((currentPage - 1) * itemsPerPage)).take itemsPerPage := by
      simp only [list, Option.getD_some]
      exact limitOffset_window itemsPerPage currentPage hone _
    have hcount : (orderBy (s.rows.filter (whereClause status category))).length
        = totalItems := by
      rw [orderBy, List.length_insertionSort]
      exact htotal
    rw [hwin, List.length_take, List.length_drop, hcount]
  rw [pageInfos_render]
  constructor
  · intro a b n hmem
    split_ifs at hmem with hpages
    · cases hmem
    · simp only [List.mem_singleton, Prod.mk.injEq] at hmem
      obtain ⟨ha, hb, hn⟩ := hmem
      subst ha hb hn
      rw [hlen, hsplit]
      refine ⟨by omega, by omega, by omega, rfl, by omega⟩
  · intro htwo
    have hnot : ¬ pageCount totalItems itemsPerPage ≤ 1 := by omega
    simp only [hnot, if_false]

theorem pagination_info_witness :
    1 ≤ 2 ∧ 1 ≤ 2 ∧ 2 ≤ pageCount 3 2 ∧
      (list sampleStore ⟨none, none, some ((2 : Nat) : Int), some ((2 : Nat) : Int), none,
        none⟩).total = 3 ∧
      ((∀ a b n, (a, b, n) ∈ pageInfos (renderPagination 3 2 2) →
          1 ≤ a ∧ a ≤ b ∧ b ≤ n ∧ n = 3 ∧
          b - a + 1 = (list sampleStore ⟨none, none, some ((2 : Nat) : Int),
            some ((2 : Nat) : Int), none, none⟩).issues.length) ∧
        (2 ≤ pageCount 3 2 →
          pageInfos (renderPagination 3 2 2) = [((2 - 1) * 2 + 1, min (2 * 2) 3, 3)])) :=
  ⟨by decide, by decide, by decide, by decide,
    pagination_info sampleStore none none none none 3 2 2 (by decide) (by decide) (by decide)
      (by decide)⟩

/-! ## Client check against the upload filter -/

theorem allowedTypes_image (t : String) (h : t ∈ allowedTypes) :
    "image/".toList <+: t.toList := by
  simp only [allowedTypes, List.mem_cons, List.mem_singleton, List.not_mem_nil, or_false] at h
  rcases h with h | h | h | h <;> subst h <;> rw [← List.isPrefixOf_iff_prefix] <;> decide

/-- What `validateForm` has checked of the image once it returns `true`. -/
theorem validateForm_image (form : FormState) (img : ImageFile)
    (himg : form.image = some img) (hok : validateForm form = true) :
    img.size ≤ maxSize ∧ img.type ∈ allowedTypes := by
  unfold validateForm formError at hok
  simp only [himg] at hok
  split_ifs at hok with h1 h2 h3 h4 h5 h6 h7
  all_goals first
    | (simp at hok; done)
    | (refine ⟨by omega, ?_⟩
       simpa using h7)

/-- C23: an image that `validateForm` accepts, sent with the type and size the
form saw, is let through by the upload middleware of the server: its MIME
type starts with `image/` and its size is at most 5MB. -/
theorem client_accepts_implies_server (form : FormState) (img : ImageFile) (filename : String)
    (himg : form.image = some img) (hok : validateForm form = true) :
    uploadSingle (some ⟨filename, img.type, img.size⟩) = none ∧
    "image/".toList <+: img.type.toList ∧ img.size ≤ 5 * 1024 * 1024 := by
  obtain ⟨hsize, htype⟩ := validateForm_image form img himg hok
  have hmax : maxSize = 5 * 1024 * 1024 := rfl
  have hpre := allowedTypes_image img.type htype
  refine ⟨?_, hpre, by omega⟩
  rw [uploadSingle_none_iff]
  exact ⟨hpre, by show img.size ≤ 5 * 1024 * 1024; omega⟩

theorem client_accepts_implies_server_witness :
    (formWithImage (5 * 1024 * 1024)).image = some ⟨"image/png", 5 * 1024 * 1024⟩ ∧
      validateForm (formWithImage (5 * 1024 * 1024)) = true ∧
      (uploadSingle (some ⟨"1700000000000-9.png",
            (⟨"image/png", 5 * 1024 * 1024⟩ : ImageFile).type,
            (⟨"image/png", 5 * 1024 * 1024⟩ : ImageFile).size⟩) = none ∧
        "image/".toList <+: (⟨"image/png", 5 * 1024 * 1024⟩ : ImageFile).type.toList ∧
        (⟨"image/png", 5 * 1024 * 1024⟩ : ImageFile).size ≤ 5 * 1024 * 1024) :=
  ⟨by decide, by decide,
    client_accepts_implies_server (formWithImage (5 * 1024 * 1024)) _ "1700000000000-9.png"
      (by decide) (by decide)⟩

/-! ## The list handler and JavaScript numbers -/

theorem bitLengthAux_le (fuel : Nat) :
    ∀ (n k : Nat), n < 2 ^ k → bitLengthAux fuel n ≤ k := by
  induction fuel with
  | zero => intro n k _; simp [bitLengthAux]
  | succ f ih =>
    intro n k hn
    rw [bitLengthAux]
    split
    · omega
    · rename_i hne
      cases k with
      | zero => simp at hn; omega
      | succ k =>
        have hhalf : n / 2 < 2 ^ k := by
          rw [Nat.pow_succ] at hn
          omega
        have := ih (n / 2) k hhalf
        omega

theorem maxSafeInteger_eq : maxSafeInteger = 9007199254740991 := by decide

theorem roundToDouble_safe (n : Int) (h : n.natAbs ≤ maxSafeInteger) : roundToDouble n = n := by
  simp only [roundToDouble, h, if_true]

theorem finiteDouble_safe (n : Int) (h : n.natAbs ≤ maxSafeInteger) : finiteDouble n := by
  unfold finiteDouble bitLength
  have hlt : n.natAbs < 2 ^ 53 := by
    rw [maxSafeInteger_eq] at h
    have : (2 : Nat) ^ 53 = 9007199254740992 := by norm_num
    omega
  have := bitLengthAux_le n.natAbs n.natAbs 53 hlt
  omega

theorem inInt64_safe (n : Int) (h : n.natAbs ≤ maxSafeInteger) : inInt64 n := by
  unfold inInt64
  rw [maxSafeInteger_eq] at h
  have h63 : (2 : Int) ^ 63 = 9223372036854775808 := by norm_num
  rw [h63]
  omega

/-- When `page`, `limit`, `page - 1` and the offset are safe integers the
handler computes without rounding and answers with the body `list` gives. -/
theorem getIssues_safe (s : Store) (q : ListQuery)
    (hpage : (q.page.getD 1).natAbs ≤ maxSafeInteger)
    (hlimit : (q.limit.getD 10).natAbs ≤ maxSafeInteger)
    (hprev : (q.page.getD 1 - 1).natAbs ≤ maxSafeInteger)
    (hoffset : ((q.page.getD 1 - 1) * q.limit.getD 10).natAbs ≤ maxSafeInteger) :
    getIssues s q = .ok (list s q) := by
  have hfp := finiteDouble_safe _ hpage
  have hfl := finiteDouble_safe _ hlimit
  have hil := inInt64_safe _ hlimit
  have hio := inInt64_safe _ hoffset
  simp only [getIssues, list, roundToDouble_safe _ hpage, roundToDouble_safe _ hlimit,
    roundToDouble_safe _ hprev, roundToDouble_safe _ hoffset, hfp, hfl, hil, hio, and_self,
    if_true]

theorem getIssues_safe_nat (s : Store) (status category priority search : Option String)
    (page limit : Nat) (hp : 0 < page) (hpage : page ≤ maxSafeInteger)
    (hlimit : limit ≤ maxSafeInteger) (hoffset : (page - 1) * limit ≤ maxSafeInteger) :
    getIssues s ⟨status, category, some page, some limit, priority, search⟩
      = .ok (list s ⟨status, category, some page, some limit, priority, search⟩) := by
  have hcast : ((page : Int) - 1) = ((page - 1 : Nat) : Int) := by omega
  apply getIssues_safe
  · simpa using hpage
  · simpa using hlimit
  · simp only [Option.getD_some, hcast, Int.natAbs_ofNat]
    omega
  · simp only [Option.getD_some, hcast]
    rw [← Int.natCast_mul, Int.natAbs_ofNat]
    exact hoffset

theorem pageCount_le (n L : Nat) (hL : 0 < L) : pageCount n L ≤ n := by
  unfold pageCount
  cases n with
  | zero =>
    have h0 : (0 + L - 1) / L = 0 := Nat.div_eq_of_lt (by omega)
    omega
  | succ m =>
    apply Nat.div_le_of_le_mul
    have h1 : m ≤ L * m := Nat.le_mul_of_pos_left m hL
    have h2 : L * (m + 1) = L * m + L := by ring
    omega

theorem allPagesServed_eq (s : Store) (L : Nat) (hL : 0 < L) (hLs : L ≤ maxSafeInteger)
    (hn : s.rows.length ≤ maxSafeInteger) :
    allPagesServed s L
      = (List.range (pageCount s.rows.length L)).map
          (fun (k : Nat) => Response.ok (list s (noFilter (k + 1) L))) := by
  unfold allPagesServed
  apply List.map_congr_left
  intro k hk
  rw [List.mem_range] at hk
  have hpages := pageCount_le s.rows.length L hL
  have hstart := page_start_lt s.rows.length L (k + 1) hL (by omega) (by omega)
  have hsafe := getIssues_safe_nat s none none none none (k + 1) L (by omega) (by omega) hLs
    (by omega)
  simp only [noFilter]
  push_cast at hsafe
  exact hsafe

/-- C3, as amended: with a positive limit `L` and a table of `n` rows, both
safe integers, each of the requests for the pages `1 .. ceil (n / L)` of the
unfiltered list is answered with a page, and the pages, concatenated, hold
every stored issue exactly once (they are a rearrangement of the table) and
run from the newest `created_at` to the oldest. -/
theorem served_pages_partition (s : Store) (L : Nat) (hL : 0 < L)
    (hLs : L ≤ maxSafeInteger) (hn : s.rows.length ≤ maxSafeInteger) :
    (∀ r ∈ allPagesServed s L, ∃ body, r = .ok body) ∧
    ((allPagesServed s L).flatMap servedIssues).Perm s.rows ∧
    ((allPagesServed s L).flatMap servedIssues).Pairwise
      (fun a b => b.created_at ≤ a.created_at) := by
  have heq := allPagesServed_eq s L hL hLs hn
  have hflat : (allPagesServed s L).flatMap servedIssues = allPages s L := by
    rw [heq, List.flatMap_map]
    rfl
  refine ⟨?_, ?_, ?_⟩
  · intro r hr
    rw [heq, List.mem_map] at hr
    obtain ⟨k, -, rfl⟩ := hr
    exact ⟨_, rfl⟩
  · rw [hflat]
    exact (allPages_perm_sorted s L hL).1
  · rw [hflat]
    exact (allPages_perm_sorted s L hL).2

theorem served_pages_partition_witness :
    0 < 2 ∧ 2 ≤ maxSafeInteger ∧ sampleStore.rows.length ≤ maxSafeInteger ∧
      ((∀ r ∈ allPagesServed sampleStore 2, ∃ body, r = .ok body) ∧
        ((allPagesServed sampleStore 2).flatMap servedIssues).Perm sampleStore.rows ∧
        ((allPagesServed sampleStore 2).flatMap servedIssues).Pairwise
          (fun a b => b.created_at ≤ a.created_at)) :=
  ⟨by decide, by decide, by decide,
    served_pages_partition sampleStore 2 (by decide) (by decide) (by decide)⟩

/-- C3, as stated, fails: with limit `9223372036854775807` the three issues of
the sample store fit on one page, but the request for that page is answered
500 `SQLITE_MISMATCH`, so the pages hold none of the issues. -/
theorem served_pages_limit_out_of_range :
    pageCount sampleStore.rows.length 9223372036854775807 = 1 ∧
      allPagesServed sampleStore 9223372036854775807
        = [.error 500 "SQLITE_MISMATCH: datatype mismatch"] ∧
      ¬ ((allPagesServed sampleStore 9223372036854775807).flatMap servedIssues).Perm
          sampleStore.rows := by
  decide

/-- C5, as amended: for a positive `page` and a `limit` such that `page`,
`limit` and the offset `(page - 1) * limit` are safe integers, the list request
is answered with the rows at positions `(page - 1) * limit` up to
`(page - 1) * limit + limit - 1` of the ordered filtered sequence, fewer when
the sequence ends first and never more than `limit`; a request without `page`
and `limit` is answered as page 1 with limit 10. -/
theorem getIssues_page_window (s : Store) (status category priority search : Option String)
    (page limit : Nat) (hp : 0 < page) (hpage : page ≤ maxSafeInteger)
    (hlimit : limit ≤ maxSafeInteger) (hoffset : (page - 1) * limit ≤ maxSafeInteger) :
    (∃ body, getIssues s ⟨status, category, some page, some limit, priority, search⟩ = .ok body ∧
      body.issues = ((orderBy (s.rows.filter (whereClause status category))).drop
          ((page - 1) * limit)).take limit ∧
      (∀ i, i < limit →
        body.issues[i]?
          = (orderBy (s.rows.filter (whereClause status category)))[(page - 1) * limit + i]?) ∧
      body.issues.length ≤ limit) ∧
    getIssues s ⟨status, category, none, none, priority, search⟩
      = getIssues s ⟨status, category, some 1, some 10, priority, search⟩ := by
  have hwin := list_window s status category priority search page limit hp
  refine ⟨⟨_, getIssues_safe_nat s status category priority search page limit hp hpage hlimit
    hoffset, hwin.1, hwin.2.1, hwin.2.2.1⟩, rfl⟩

theorem getIssues_page_window_witness :
    0 < 2 ∧ 2 ≤ maxSafeInteger ∧ (2 - 1) * 2 ≤ maxSafeInteger ∧
      ((∃ body, getIssues sampleStore
            ⟨none, none, some ((2 : Nat) : Int), some ((2 : Nat) : Int), none, none⟩ = .ok body ∧
          body.issues = ((orderBy (sampleStore.rows.filter (whereClause none none))).drop
              ((2 - 1) * 2)).take 2 ∧
          (∀ i, i < 2 →
            body.issues[i]?
              = (orderBy (sampleStore.rows.filter (whereClause none none)))[(2 - 1) * 2 + i]?) ∧
          body.issues.length ≤ 2) ∧
        getIssues sampleStore ⟨none, none, none, none, none, none⟩
          = getIssues sampleStore ⟨none, none, some 1, some 10, none, none⟩) :=
  ⟨by decide, by decide, by decide,
    getIssues_page_window sampleStore none none none none 2 2 (by decide) (by decide)
      (by decide) (by decide)⟩

/-- C5, as stated, fails: page 1 with limit `9223372036854775807` is answered
500 `SQLITE_MISMATCH` and returns no issue, although the ordered sequence has
three rows at positions 0 to 2. -/
theorem getIssues_limit_out_of_range :
    getIssues sampleStore ⟨none, none, some 1, some 9223372036854775807, none, none⟩
        = .error 500 "SQLITE_MISMATCH: datatype mismatch" ∧
      servedIssues
          (getIssues sampleStore ⟨none, none, some 1, some 9223372036854775807, none, none⟩)
        = [] ∧
      (((orderBy (sampleStore.rows.filter (whereClause none none))).drop
          ((1 - 1) * 9223372036854775807)).take 9223372036854775807).length = 3 := by
  decide

end CivicIssues
